import Mathlib

/-!
# Seed script of qor-example (`db/seeds/main.go`)

A shallow embedding of the seeding script: the rows it builds, the storage,
filesystem, network, clock and random collaborators it talks to, and the
script's own functions, followed by the properties proved about them.
-/

namespace Seeds

/-! ## Data model -/

/-- File contents. -/
abbrev Bytes := List Nat

/-- The entity types of `app/models` the script touches. -/
inductive TableName where
  | users | addresses | categories | colors | sizes | products
  | colorVariations | colorVariationImages | sizeVariations | stores
  | orders | orderItems
  deriving DecidableEq, Repr

/-- The fixed list `Tables` of the script, in its order. -/
def Tables : List TableName :=
  [.users, .addresses,
   .categories, .colors, .sizes,
   .products, .colorVariations, .colorVariationImages, .sizeVariations,
   .stores,
   .orders, .orderItems]

/-- A user; `createdAt` is an instant in nanoseconds. -/
structure User where
  id : Nat
  email : String
  name : String
  gender : String
  createdAt : Int
  deriving DecidableEq, Repr

structure Address where
  id : Nat
  userID : Nat
  contactName : String
  phone : String
  city : String
  address1 : String
  deriving DecidableEq, Repr

structure Category where
  id : Nat
  name : String
  deriving DecidableEq, Repr

structure Color where
  id : Nat
  name : String
  code : String
  deriving DecidableEq, Repr

structure Size where
  id : Nat
  name : String
  code : String
  deriving DecidableEq, Repr

/-- Prices are `float32` values that the script only copies; they are carried
uninterpreted. -/
abbrev Price := Nat

/-- Coordinates are `float64` values that the script only copies. -/
abbrev Coord := Int

structure Product where
  id : Nat
  categoryID : Nat
  name : String
  nameWithSlug : String
  code : String
  price : Price
  description : String
  madeCountry : String
  deriving DecidableEq, Repr

structure ColorVariation where
  id : Nat
  productID : Nat
  colorID : Nat
  deriving DecidableEq, Repr

/-- An open file: the path it was opened at and whether it came from
`os.Create` (read-write) or `os.Open` (read-only). -/
structure Handle where
  path : String
  writable : Bool
  deriving DecidableEq, Repr

/-- The image field holds the file scanned into it, if any. -/
structure ColorVariationImage where
  id : Nat
  colorVariationID : Nat
  image : Option Handle
  deriving DecidableEq, Repr

structure SizeVariation where
  id : Nat
  colorVariationID : Nat
  sizeID : Nat
  availableQuantity : Nat
  deriving DecidableEq, Repr

structure Store where
  id : Nat
  name : String
  phone : String
  email : String
  country : String
  city : String
  region : String
  address : String
  zip : String
  latitude : Coord
  longitude : Coord
  deriving DecidableEq, Repr

/-- An order; `createdAt` is an instant in nanoseconds. -/
structure Order where
  id : Nat
  userID : Nat
  shippingAddressID : Nat
  billingAddressID : Nat
  createdAt : Int
  deriving DecidableEq, Repr

structure OrderItem where
  id : Nat
  orderID : Nat
  sizeVariationID : Nat
  quantity : Nat
  price : Price
  discountRate : Nat
  deriving DecidableEq, Repr

/-- A user as returned by a query with `Preload("Addresses")`. -/
structure UserWithAddresses where
  user : User
  addresses : List Address
  deriving DecidableEq, Repr

/-! ## Fixture data (`Seeds`) -/

structure SeedCategory where
  name : String
  deriving DecidableEq, Repr

structure SeedColor where
  name : String
  code : String
  deriving DecidableEq, Repr

structure SeedSize where
  name : String
  code : String
  deriving DecidableEq, Repr

structure SeedImage where
  url : String
  deriving DecidableEq, Repr

structure SeedColorVariation where
  colorName : String
  images : List SeedImage
  deriving DecidableEq, Repr

structure SeedSizeVariation where
  sizeName : String
  deriving DecidableEq, Repr

structure SeedProduct where
  categoryName : String
  name : String
  nameWithSlug : String
  code : String
  price : Price
  description : String
  madeCountry : String
  colorVariations : List SeedColorVariation
  sizeVariations : List SeedSizeVariation
  deriving DecidableEq, Repr

structure SeedStore where
  name : String
  phone : String
  email : String
  country : String
  zip : String
  city : String
  region : String
  address : String
  latitude : Coord
  longitude : Coord
  deriving DecidableEq, Repr

/-- The structure the fixture files are loaded into. -/
structure SeedData where
  categories : List SeedCategory
  colors : List SeedColor
  sizes : List SeedSize
  products : List SeedProduct
  stores : List SeedStore
  deriving DecidableEq, Repr

/-! ## Collaborators -/

/-- Rows of the primary storage target, one list per table, in insertion
order. -/
structure Database where
  users : List User
  addresses : List Address
  categories : List Category
  colors : List Color
  sizes : List Size
  products : List Product
  colorVariations : List ColorVariation
  colorVariationImages : List ColorVariationImage
  sizeVariations : List SizeVariation
  stores : List Store
  orders : List Order
  orderItems : List OrderItem
  deriving DecidableEq, Repr

/-- The kinds of storage call the script makes. -/
inductive Op where
  | create | save | find | first | dropTableIfExists | autoMigrate
  deriving DecidableEq, Repr

/-- One storage call as it happened: what, on which table, on which target,
and whether it returned an error. -/
structure Call where
  op : Op
  table : TableName
  draft : Bool
  failed : Bool
  deriving DecidableEq, Repr

/-- One inserted row: its table, the id it received, and whether, at the
moment of insertion, each of its foreign keys was the id of a row present in
the referenced table. -/
structure Insert where
  table : TableName
  id : Nat
  refsPresent : Bool
  deriving DecidableEq, Repr

/-- What an HTTP GET followed by `io.Copy` gives: a request error, or a
response of which `delivered` reaches the file before the copy ends, with an
error if the copy broke off. -/
inductive HttpResult where
  | error (msg : String)
  | response (delivered : Bytes) (copyErr : Option String)
  deriving DecidableEq, Repr

/-- Modelled from the spec: the behaviour of everything outside the script
that the script cannot control. `storageErr n` tells whether the storage call
number `n` of the run returns an error; `randInt n` is the raw value behind the
`n`-th draw of the global random source; `fakeText n` the `n`-th string of the
faker; `clock n` the wall-clock reading after `n` storage calls; `urlPath` is
`url.Parse` followed by `.Path`; `canOpen` tells whether `os.Open` succeeds
at a path that exists (it does not when the path cannot be read);
`canCreate` tells whether `os.Create` succeeds at a path; `httpGet` is the
network; `basePath` is `filepath.Abs(".")`. -/
structure Env where
  storageErr : Nat → Bool
  randInt : Nat → Nat
  fakeText : Nat → String
  clock : Nat → Int
  urlPath : String → Option String
  canOpen : String → Bool
  canCreate : String → Bool
  httpGet : String → HttpResult
  basePath : String

/-- The mutable state of a run. The filesystem is what each path names:
`files` holds the regular files with their bytes and `dirs` the directories,
both under the path as the script spells it (`tmp/` itself is spelled with
its trailing slash). -/
structure World where
  db : Database
  schema : List TableName
  draftSchema : List TableName
  trace : List Call
  journal : List Insert
  randDraws : Nat
  fakeDraws : Nat
  files : List (String × Bytes)
  dirs : List String
  requests : List String
  stdout : List String
  deriving DecidableEq, Repr

def Database.empty : Database :=
  { users := [], addresses := [], categories := [], colors := [], sizes := [],
    products := [], colorVariations := [], colorVariationImages := [],
    sizeVariations := [], stores := [], orders := [], orderItems := [] }

/-- A fresh run on empty tables. -/
def World.empty : World :=
  { db := Database.empty, schema := Tables, draftSchema := Tables, trace := [],
    journal := [], randDraws := 0, fakeDraws := 0, files := [], dirs := [], requests := [],
    stdout := [] }

/-! ## Control flow -/

/-- How a run ends early: `log.Fatalf` or a Go panic. -/
inductive Exit where
  | fatal (msg : String)
  | panic (msg : String)
  deriving DecidableEq, Repr

/-- Result of running a piece of the script. -/
inductive Res (α : Type) where
  | ok (val : α) (w : World)
  | abort (e : Exit) (w : World)

/-- The state the run is left in. -/
def Res.world {α : Type} : Res α → World
  | .ok _ w => w
  | .abort _ w => w

/-- The early exit, if any. -/
def Res.exit {α : Type} : Res α → Option Exit
  | .ok _ _ => none
  | .abort e _ => some e

/-- The result satisfies `Q` if the run goes on and `A` if it ends early. -/
def Res.sat {α : Type} (r : Res α) (Q : α → World → Prop) (A : Exit → World → Prop) : Prop :=
  match r with
  | .ok a w => Q a w
  | .abort e w => A e w

/-- A piece of the script: reads and writes the world, and may end the run. -/
def M (α : Type) : Type := World → Res α

def M.run {α : Type} (m : M α) (w : World) : Res α := m w

def M.pure {α : Type} (a : α) : M α := fun w => .ok a w

def M.bind {α β : Type} (m : M α) (f : α → M β) : M β := fun w =>
  match m w with
  | .ok a w1 => f a w1
  | .abort e w1 => .abort e w1

instance : Monad M where
  pure := M.pure
  bind := M.bind

/-- A storage call: returns a value or an error, never ends the run itself. -/
abbrev DBCall (α : Type) : Type := World → Except String α × World

/-- The pattern `if err := call.Error; err != nil \x7b log.Fatalf(msg) \x7d`. -/
def orFatal {α : Type} (msg : String) (c : DBCall α) : M α := fun w =>
  match c w with
  | (.ok a, w1) => .ok a w1
  | (.error _, w1) => .abort (.fatal msg) w1

/-- The pattern `if err := call.Error; err != nil \x7b panic(err) \x7d`. -/
def orPanic {α : Type} (c : DBCall α) : M α := fun w =>
  match c w with
  | (.ok a, w1) => .ok a w1
  | (.error e, w1) => .abort (.panic e) w1

/-- A storage call whose result is dropped. -/
def ignoreErr {α : Type} (c : DBCall α) : M Unit := fun w =>
  .ok () (c w).2

/-- A call that cannot end the run. -/
def effect {α : Type} (f : World → α × World) : M α := fun w =>
  .ok (f w).1 (f w).2

/-- A Go runtime panic. -/
def goPanic {α : Type} (msg : String) : M α := fun w => .abort (.panic msg) w

/-- The loop `for _, x := range xs`. -/
def forEach {α : Type} (xs : List α) (body : α → M Unit) : M Unit :=
  match xs with
  | [] => pure ()
  | x :: rest => do
    body x
    forEach rest body

/-- The loop `for i, x := range xs`, with `i` counted from `start`. -/
def forEachIdx {α : Type} (start : Nat) (xs : List α) (body : Nat → α → M Unit) : M Unit :=
  match xs with
  | [] => pure ()
  | x :: rest => do
    body start x
    forEachIdx (start + 1) rest body

/-- The loop `for i := start; i < start + count; i++`. -/
def loopFrom (start count : Nat) (body : Nat → M Unit) : M Unit :=
  match count with
  | 0 => pure ()
  | k + 1 => do
    body start
    loopFrom (start + 1) k body

/-- The call `fmt.Println(line)`. -/
def println (line : String) : M Unit := fun w =>
  .ok () { w with stdout := w.stdout ++ [line] }

/-! ## Random source, faker and clock -/

/-- The call `rand.Intn(n)` for a positive `n`: a value in `[0, n)`. -/
def randIntn (env : Env) (n : Nat) : M Nat := fun w =>
  .ok (env.randInt w.randDraws % n) { w with randDraws := w.randDraws + 1 }

/-- One string from the faker. -/
def fake (env : Env) : M String := fun w =>
  .ok (env.fakeText w.fakeDraws) { w with fakeDraws := w.fakeDraws + 1 }

/-- The call `time.Now()`. -/
def timeNow (env : Env) : M Int := fun w => .ok (env.clock w.trace.length) w

/-- A value of Go's `int64`, wrapped. -/
def wrap64 (x : Int) : Int := (x + 2 ^ 63) % 2 ^ 64 - 2 ^ 63

/-- The constant `time.Hour`, in nanoseconds. -/
def hour : Int := 3600000000000

/-- The expression `time.Duration(k) * time.Hour`. -/
def hours (k : Int) : Int := wrap64 (wrap64 k * hour)

/-- The function `randTime`. -/
def randTime (env : Env) : M Int := do
  let now ← timeNow env
  let n ← randIntn env (7 * 24)
  pure (now + hours (-(n : Int)))

/-! ## Storage -/

/-- Modelled from the spec: identity assigned by the storage on create, one
more than the largest id in the table. -/
def nextID (ids : List Nat) : Nat := ids.foldr max 0 + 1

/-- Modelled from the spec: `save(update)`, the row with the same id is
replaced; a row with an unknown id is inserted. -/
def upsert {α : Type} (key : α → Nat) (row : α) (rows : List α) : List α :=
  if key row ∈ rows.map key then rows.map (fun r => if key r = key row then row else r)
  else rows ++ [row]

/-- Records a storage call in the trace. -/
def World.logCall (w : World) (op : Op) (t : TableName) (draft failed : Bool) : World :=
  { w with trace := w.trace ++ [{ op := op, table := t, draft := draft, failed := failed }] }

/-- Records an inserted row in the journal. -/
def World.logInsert (w : World) (t : TableName) (id : Nat) (refs : Bool) : World :=
  { w with journal := w.journal ++ [{ table := t, id := id, refsPresent := refs }] }

/-- The error value of a storage call the environment fails. -/
def storageError : String := "storage error"

/-- The error value of a single-row query that matches no row. -/
def recordNotFound : String := "record not found"

/-- Modelled from the spec: one call to the storage collaborator. The call is
recorded in the trace; it returns an error and changes nothing when the
environment fails it, and otherwise does what `run` says. -/
def storage {α : Type} (env : Env) (op : Op) (t : TableName) (draft : Bool)
    (run : World → α × World) : DBCall α := fun w =>
  if env.storageErr w.trace.length then (.error storageError, w.logCall op t draft true)
  else (.ok (run w).1, (run w).2.logCall op t draft false)

/-- Modelled from the spec: the storage collaborator's `create` on users. The
row receives its id and its creation timestamp. -/
def dbCreateUser (env : Env) (u : User) : DBCall User :=
  storage env .create .users false fun w =>
    let row := { u with id := nextID (w.db.users.map User.id), createdAt := env.clock w.trace.length }
    (row, { w.logInsert .users row.id true with db := { w.db with users := w.db.users ++ [row] } })

/-- Modelled from the spec: the storage collaborator's `save` on users. A
save that inserts is recorded in the journal like a create. -/
def dbSaveUser (env : Env) (u : User) : DBCall Unit :=
  storage env .save .users false fun w =>
    let w1 := if u.id ∈ w.db.users.map User.id then w else w.logInsert .users u.id true
    ((), { w1 with db := { w.db with users := upsert User.id u w.db.users } })

/-- Modelled from the spec: the storage collaborator's `find` of all users. -/
def dbFindUsers (env : Env) : DBCall (List User) :=
  storage env .find .users false fun w => (w.db.users, w)

/-- Modelled from the spec: `Limit(n).Preload("Addresses").Find(&users)`, the
first `n` users in table order, each with the addresses that reference it. -/
def dbFindUsersWithAddresses (env : Env) (n : Nat) : DBCall (List UserWithAddresses) :=
  storage env .find .users false fun w =>
    ((w.db.users.take n).map fun u =>
      { user := u, addresses := w.db.addresses.filter fun a => a.userID = u.id }, w)

/-- Modelled from the spec: the storage collaborator's `create` on addresses. -/
def dbCreateAddress (env : Env) (a : Address) : DBCall Address :=
  storage env .create .addresses false fun w =>
    let row := { a with id := nextID (w.db.addresses.map Address.id) }
    let refs := decide (row.userID ∈ w.db.users.map User.id)
    (row, { w.logInsert .addresses row.id refs with
      db := { w.db with addresses := w.db.addresses ++ [row] } })

/-- Modelled from the spec: the storage collaborator's `create` on categories. -/
def dbCreateCategory (env : Env) (c : Category) : DBCall Category :=
  storage env .create .categories false fun w =>
    let row := { c with id := nextID (w.db.categories.map Category.id) }
    (row, { w.logInsert .categories row.id true with
      db := { w.db with categories := w.db.categories ++ [row] } })

/-- Modelled from the spec: the storage collaborator's `create` on colors. -/
def dbCreateColor (env : Env) (c : Color) : DBCall Color :=
  storage env .create .colors false fun w =>
    let row := { c with id := nextID (w.db.colors.map Color.id) }
    (row, { w.logInsert .colors row.id true with
      db := { w.db with colors := w.db.colors ++ [row] } })

/-- Modelled from the spec: the storage collaborator's `create` on sizes. -/
def dbCreateSize (env : Env) (s : Size) : DBCall Size :=
  storage env .create .sizes false fun w =>
    let row := { s with id := nextID (w.db.sizes.map Size.id) }
    (row, { w.logInsert .sizes row.id true with
      db := { w.db with sizes := w.db.sizes ++ [row] } })

/-- Modelled from the spec: the storage collaborator's `create` on products. -/
def dbCreateProduct (env : Env) (p : Product) : DBCall Product :=
  storage env .create .products false fun w =>
    let row := { p with id := nextID (w.db.products.map Product.id) }
    let refs := decide (row.categoryID ∈ w.db.categories.map Category.id)
    (row, { w.logInsert .products row.id refs with
      db := { w.db with products := w.db.products ++ [row] } })

/-- Modelled from the spec: the storage collaborator's `create` on color
variations. -/
def dbCreateColorVariation (env : Env) (cv : ColorVariation) : DBCall ColorVariation :=
  storage env .create .colorVariations false fun w =>
    let row := { cv with id := nextID (w.db.colorVariations.map ColorVariation.id) }
    let refs := decide (row.productID ∈ w.db.products.map Product.id)
      && decide (row.colorID ∈ w.db.colors.map Color.id)
    (row, { w.logInsert .colorVariations row.id refs with
      db := { w.db with colorVariations := w.db.colorVariations ++ [row] } })

/-- Modelled from the spec: the storage collaborator's `create` on color
variation images. -/
def dbCreateColorVariationImage (env : Env) (img : ColorVariationImage) :
    DBCall ColorVariationImage :=
  storage env .create .colorVariationImages false fun w =>
    let row := { img with id := nextID (w.db.colorVariationImages.map ColorVariationImage.id) }
    let refs := decide (row.colorVariationID ∈ w.db.colorVariations.map ColorVariation.id)
    (row, { w.logInsert .colorVariationImages row.id refs with
      db := { w.db with colorVariationImages := w.db.colorVariationImages ++ [row] } })

/-- Modelled from the spec: the storage collaborator's `create` on size
variations. -/
def dbCreateSizeVariation (env : Env) (sv : SizeVariation) : DBCall SizeVariation :=
  storage env .create .sizeVariations false fun w =>
    let row := { sv with id := nextID (w.db.sizeVariations.map SizeVariation.id) }
    let refs := decide (row.colorVariationID ∈ w.db.colorVariations.map ColorVariation.id)
      && decide (row.sizeID ∈ w.db.sizes.map Size.id)
    (row, { w.logInsert .sizeVariations row.id refs with
      db := { w.db with sizeVariations := w.db.sizeVariations ++ [row] } })

/-- Modelled from the spec: the storage collaborator's `create` on stores. -/
def dbCreateStore (env : Env) (s : Store) : DBCall Store :=
  storage env .create .stores false fun w =>
    let row := { s with id := nextID (w.db.stores.map Store.id) }
    (row, { w.logInsert .stores row.id true with
      db := { w.db with stores := w.db.stores ++ [row] } })

/-- Modelled from the spec: the storage collaborator's `create` on orders.
The row receives its id and its creation timestamp. -/
def dbCreateOrder (env : Env) (o : Order) : DBCall Order :=
  storage env .create .orders false fun w =>
    let row := { o with id := nextID (w.db.orders.map Order.id), createdAt := env.clock w.trace.length }
    let refs := decide (row.userID ∈ w.db.users.map User.id)
      && decide (row.shippingAddressID ∈ w.db.addresses.map Address.id)
      && decide (row.billingAddressID ∈ w.db.addresses.map Address.id)
    (row, { w.logInsert .orders row.id refs with
      db := { w.db with orders := w.db.orders ++ [row] } })

/-- Modelled from the spec: the storage collaborator's `save` on orders. A
save that inserts is recorded in the journal like a create. -/
def dbSaveOrder (env : Env) (o : Order) : DBCall Unit :=
  storage env .save .orders false fun w =>
    let refs := decide (o.userID ∈ w.db.users.map User.id)
      && decide (o.shippingAddressID ∈ w.db.addresses.map Address.id)
      && decide (o.billingAddressID ∈ w.db.addresses.map Address.id)
    let w1 := if o.id ∈ w.db.orders.map Order.id then w else w.logInsert .orders o.id refs
    ((), { w1 with db := { w.db with orders := upsert Order.id o w.db.orders } })

/-- Modelled from the spec: the storage collaborator's `create` on order
items. -/
def dbCreateOrderItem (env : Env) (it : OrderItem) : DBCall OrderItem :=
  storage env .create .orderItems false fun w =>
    let row := { it with id := nextID (w.db.orderItems.map OrderItem.id) }
    let refs := decide (row.orderID ∈ w.db.orders.map Order.id)
      && decide (row.sizeVariationID ∈ w.db.sizeVariations.map SizeVariation.id)
    (row, { w.logInsert .orderItems row.id refs with
      db := { w.db with orderItems := w.db.orderItems ++ [row] } })

/-- Modelled from the spec: the storage collaborator's `find` of all size
variations. -/
def dbFindSizeVariations (env : Env) : DBCall (List SizeVariation) :=
  storage env .find .sizeVariations false fun w => (w.db.sizeVariations, w)

/-- Modelled from the spec: a single-row query, the first row of `rows` that
satisfies `p`, an error when the environment fails the call or no row
matches. -/
def dbSingle {α : Type} (env : Env) (op : Op) (t : TableName) (rows : World → List α)
    (p : α → Bool) : DBCall α := fun w =>
  if env.storageErr w.trace.length then (.error storageError, w.logCall op t false true)
  else
    match (rows w).find? p with
    | some r => (.ok r, w.logCall op t false false)
    | none => (.error recordNotFound, w.logCall op t false true)

/-- Modelled from the spec: `Where(&models.Category\x7bName: name\x7d).First(category)`,
the first category whose name is exactly `name`. -/
def dbFirstCategoryByName (env : Env) (name : String) : DBCall Category :=
  dbSingle env .first .categories (fun w => w.db.categories) fun c => c.name = name

/-- Modelled from the spec: the first color whose name is exactly `name`. -/
def dbFirstColorByName (env : Env) (name : String) : DBCall Color :=
  dbSingle env .first .colors (fun w => w.db.colors) fun c => c.name = name

/-- Modelled from the spec: the first size whose name is exactly `name`. -/
def dbFirstSizeByName (env : Env) (name : String) : DBCall Size :=
  dbSingle env .first .sizes (fun w => w.db.sizes) fun s => s.name = name

/-- Modelled from the spec: `Find(&colorVariation, id)`, the color variation
with primary key `id`. -/
def dbFindColorVariation (env : Env) (id : Nat) : DBCall ColorVariation :=
  dbSingle env .find .colorVariations (fun w => w.db.colorVariations) fun cv => cv.id = id

/-- Modelled from the spec: `Find(&product, id)`, the product with primary
key `id`. -/
def dbFindProduct (env : Env) (id : Nat) : DBCall Product :=
  dbSingle env .find .products (fun w => w.db.products) fun p => p.id = id

/-- Removes the rows of one table. -/
def Database.clear (d : Database) : TableName → Database
  | .users => { d with users := [] }
  | .addresses => { d with addresses := [] }
  | .categories => { d with categories := [] }
  | .colors => { d with colors := [] }
  | .sizes => { d with sizes := [] }
  | .products => { d with products := [] }
  | .colorVariations => { d with colorVariations := [] }
  | .colorVariationImages => { d with colorVariationImages := [] }
  | .sizeVariations => { d with sizeVariations := [] }
  | .stores => { d with stores := [] }
  | .orders => { d with orders := [] }
  | .orderItems => { d with orderItems := [] }

/-- Modelled from the spec: `DropTableIfExists(table)` on the primary
(`draft = false`) or the draft target. -/
def dbDropTableIfExists (env : Env) (draft : Bool) (t : TableName) : DBCall Unit :=
  storage env .dropTableIfExists t draft fun w =>
    if draft then ((), { w with draftSchema := w.draftSchema.filter fun x => x ≠ t })
    else ((), { w with schema := w.schema.filter (fun x => x ≠ t), db := w.db.clear t })

/-- Modelled from the spec: `AutoMigrate(table)` on the primary
(`draft = false`) or the draft target. -/
def dbAutoMigrate (env : Env) (draft : Bool) (t : TableName) : DBCall Unit :=
  storage env .autoMigrate t draft fun w =>
    if draft then
      ((), { w with draftSchema := if t ∈ w.draftSchema then w.draftSchema else w.draftSchema ++ [t] })
    else ((), { w with schema := if t ∈ w.schema then w.schema else w.schema ++ [t] })

/-! ## Filesystem and network -/

/-- The bytes of the file at `path`, if there is one. -/
def fileBytes (files : List (String × Bytes)) (path : String) : Option Bytes :=
  (files.find? fun f => f.1 = path).map Prod.snd

/-- Replaces the contents of the file at `path`. -/
def writeFile (files : List (String × Bytes)) (path : String) (bytes : Bytes) :
    List (String × Bytes) :=
  (path, bytes) :: files.filter fun f => f.1 ≠ path

/-- The call `strings.Split(path, "/")` on the characters of `path`. -/
def splitSlash : List Char → List (List Char)
  | [] => [[]]
  | c :: cs =>
    match splitSlash cs with
    | [] => if c = '/' then [[], []] else [[c]]
    | seg :: rest => if c = '/' then [] :: seg :: rest else (c :: seg) :: rest

/-- The expression `segments[len(segments)-1]` of `openFileByURL`. -/
def lastSegment (path : String) : String :=
  String.mk ((splitSlash path.data).getLastD [])

/-- The local path `openFileByURL` caches a URL path at. -/
def cachePath (env : Env) (path : String) : String :=
  env.basePath ++ "/tmp/" ++ lastSegment path

/-- What `openFileByURL` returns: the Go pair `(*os.File, error)`. -/
structure FileResult where
  file : Option Handle
  err : Option String
  deriving DecidableEq, Repr

/-- The test `_, err := os.Stat(path); err == nil`: something, a regular file
or a directory, is at the path. -/
def osStat (w : World) (path : String) : Bool :=
  (fileBytes w.files path).isSome || decide (path ∈ w.dirs)

/-- The call `os.Open(path)` at a path that exists: a read-only handle, or
the error and no handle. -/
def osOpen (env : Env) (path : String) : FileResult :=
  if env.canOpen path then { file := some { path := path, writable := false }, err := none }
  else { file := none, err := some "open error" }

/-- The function `openFileByURL`. -/
def openFileByURL (env : Env) (rawURL : String) (w : World) : FileResult × World :=
  match env.urlPath rawURL with
  | none => ({ file := none, err := some "parse error" }, w)
  | some path =>
    let filePath := cachePath env path
    if osStat w filePath then (osOpen env filePath, w)
    else if env.canCreate filePath = false then
      ({ file := none, err := some "create error" }, w)
    else
      let file : Handle := { path := filePath, writable := true }
      let w1 := { w with files := writeFile w.files filePath [] }
      let w2 := { w1 with requests := w1.requests ++ [rawURL] }
      match env.httpGet rawURL with
      | .error msg => ({ file := some file, err := some msg }, w2)
      | .response delivered copyErr =>
        let w3 := { w2 with stdout := w2.stdout ++ ["----> Downloaded " ++ rawURL] }
        let w4 := { w3 with files := writeFile w3.files filePath delivered }
        match copyErr with
        | some msg => ({ file := some file, err := some msg }, w4)
        | none => ({ file := some file, err := none }, w4)

/-! ## The script -/

/-- The function `truncateTables`. -/
def truncateTables (env : Env) : M Unit :=
  forEach Tables fun table => do
    orPanic (dbDropTableIfExists env false table)
    orPanic (dbDropTableIfExists env true table)
    ignoreErr (dbAutoMigrate env false table)
    ignoreErr (dbAutoMigrate env true table)

/-- The function `createUsers`. -/
def createUsers (env : Env) : M Unit :=
  loopFrom 0 500 fun i => do
    let email ← fake env
    let name ← fake env
    let gender := ["Female", "Male"].get ⟨i % 2, Nat.mod_lt i (by decide)⟩
    let user : User := { id := 0, email := email, name := name, gender := gender, createdAt := 0 }
    let user ← orFatal "create user failure" (dbCreateUser env user)
    let t ← randTime env
    let user := { user with createdAt := t }
    orFatal "Save user failure" (dbSaveUser env user)

/-- The function `createAddresses`. -/
def createAddresses (env : Env) : M Unit := do
  let users ← orFatal "query users failure" (dbFindUsers env)
  forEach users fun user => do
    let phone ← fake env
    let city ← fake env
    let street ← fake env
    let postCode ← fake env
    let address : Address :=
      { id := 0, userID := user.id, contactName := user.name, phone := phone, city := city,
        address1 := street ++ ", " ++ city ++ ", " ++ postCode }
    let _ ← orFatal "create address failure" (dbCreateAddress env address)
    pure ()

/-- The function `createCategories`. -/
def createCategories (env : Env) (seeds : SeedData) : M Unit :=
  forEach seeds.categories fun c => do
    let category : Category := { id := 0, name := c.name }
    let _ ← orFatal "create category failure" (dbCreateCategory env category)
    pure ()

/-- The function `createColors`. -/
def createColors (env : Env) (seeds : SeedData) : M Unit :=
  forEach seeds.colors fun c => do
    let color : Color := { id := 0, name := c.name, code := c.code }
    let _ ← orFatal "create color failure" (dbCreateColor env color)
    pure ()

/-- The function `createSizes`. -/
def createSizes (env : Env) (seeds : SeedData) : M Unit :=
  forEach seeds.sizes fun s => do
    let size : Size := { id := 0, name := s.name, code := s.code }
    let _ ← orFatal "create size failure" (dbCreateSize env size)
    pure ()

/-- The function `findCategoryByName`. -/
def findCategoryByName (env : Env) (name : String) : M Category :=
  orFatal "can't find category" (dbFirstCategoryByName env name)

/-- The function `findColorByName`. -/
def findColorByName (env : Env) (name : String) : M Color :=
  orFatal "can't find color" (dbFirstColorByName env name)

/-- The function `findSizeByName`. -/
def findSizeByName (env : Env) (name : String) : M Size :=
  orFatal "can't find size" (dbFirstSizeByName env name)

/-- The function `findProductByColorVariationID`. -/
def findProductByColorVariationID (env : Env) (colorVariationID : Nat) : M Product := do
  let colorVariation ← orFatal "query colorVariation failure" (dbFindColorVariation env colorVariationID)
  orFatal "query product failure" (dbFindProduct env colorVariation.productID)

/-- The image loop of `createProducts`, for one image URL of a color
variation. -/
def createImage (env : Env) (colorVariation : ColorVariation) (i : SeedImage) : M Unit := do
  let fetched ← effect (openFileByURL env i.url)
  let scanned ←
    match fetched.err with
    | some _ => do
      println ("open file failure " ++ i.url)
      pure none
    | none => pure fetched.file
  let image : ColorVariationImage :=
    { id := 0, colorVariationID := colorVariation.id, image := scanned }
  let _ ← orFatal "create color_variation_image failure" (dbCreateColorVariationImage env image)
  pure ()

/-- The size loop of `createProducts`, for one size variation entry under a
color variation. -/
def createSizeVariation (env : Env) (colorVariation : ColorVariation) (sv : SeedSizeVariation) :
    M Unit := do
  let size ← findSizeByName env sv.sizeName
  let sizeVariation : SizeVariation :=
    { id := 0, colorVariationID := colorVariation.id, sizeID := size.id, availableQuantity := 20 }
  let _ ← orFatal "create size_variation failure" (dbCreateSizeVariation env sizeVariation)
  pure ()

/-- The color loop of `createProducts`, for one color variation entry of a
product. -/
def createColorVariation (env : Env) (p : SeedProduct) (product : Product)
    (cv : SeedColorVariation) : M Unit := do
  let color ← findColorByName env cv.colorName
  let colorVariation : ColorVariation := { id := 0, productID := product.id, colorID := color.id }
  let colorVariation ← orFatal "create color_variation failure" (dbCreateColorVariation env colorVariation)
  forEach cv.images (createImage env colorVariation)
  forEach p.sizeVariations (createSizeVariation env colorVariation)

/-- The body of the loop of `createProducts`, for one fixture product. -/
def createProduct (env : Env) (p : SeedProduct) : M Unit := do
  let category ← findCategoryByName env p.categoryName
  let product : Product :=
    { id := 0, categoryID := category.id, name := p.name, nameWithSlug := p.nameWithSlug,
      code := p.code, price := p.price, description := p.description,
      madeCountry := p.madeCountry }
  let product ← orFatal "create product failure" (dbCreateProduct env product)
  forEach p.colorVariations (createColorVariation env p product)

/-- The function `createProducts`. -/
def createProducts (env : Env) (seeds : SeedData) : M Unit :=
  forEach seeds.products (createProduct env)

/-- The function `createStores`. -/
def createStores (env : Env) (seeds : SeedData) : M Unit :=
  forEach seeds.stores fun s => do
    let store : Store :=
      { id := 0, name := s.name, phone := s.phone, email := s.email, country := s.country,
        city := s.city, region := s.region, address := s.address, zip := s.zip,
        latitude := s.latitude, longitude := s.longitude }
    let _ ← orFatal "create store failure" (dbCreateStore env store)
    pure ()

/-- The body of the loop of `createOrders`, for the user at index `i`. -/
def createOrder (env : Env) (sizeVariations : List SizeVariation) (i : Nat)
    (user : UserWithAddresses) : M Unit :=
  match user.addresses with
  | [] => goPanic "index out of range"
  | address :: _ => do
    let order : Order :=
      { id := 0, userID := user.user.id, shippingAddressID := address.id,
        billingAddressID := address.id, createdAt := 0 }
    let order ← orFatal "create order failure" (dbCreateOrder env order)
    if h : sizeVariations.length = 0 then goPanic "integer divide by zero"
    else do
      let sizeVariation :=
        sizeVariations.get ⟨i % sizeVariations.length, Nat.mod_lt i (Nat.pos_of_ne_zero h)⟩
      let product ← findProductByColorVariationID env sizeVariation.colorVariationID
      let quantity := [1, 2, 3, 4, 5].get ⟨i % 5, Nat.mod_lt i (by decide)⟩
      let discountRate := [0, 5, 10, 15, 20, 25].get ⟨i % 6, Nat.mod_lt i (by decide)⟩
      let orderItem : OrderItem :=
        { id := 0, orderID := order.id, sizeVariationID := sizeVariation.id,
          quantity := quantity, price := product.price, discountRate := discountRate }
      let _ ← orFatal "create orderItem failure" (dbCreateOrderItem env orderItem)
      let offset ← randIntn env 24
      let order := { order with createdAt := user.user.createdAt + hours offset }
      orFatal "Save order failure" (dbSaveOrder env order)

/-- The function `createOrders`. -/
def createOrders (env : Env) : M Unit := do
  let users ← orFatal "query users failure" (dbFindUsersWithAddresses env 480)
  let sizeVariations ← orFatal "query sizeVariations failure" (dbFindSizeVariations env)
  forEachIdx 0 users (createOrder env sizeVariations)

/-- The function `createRecords`. -/
def createRecords (env : Env) (seeds : SeedData) : M Unit := do
  println "Start create sample data..."
  createUsers env
  println "--> Created users."
  createAddresses env
  println "--> Created addresses."
  createCategories env seeds
  println "--> Created categories."
  createColors env seeds
  println "--> Created colors."
  createSizes env seeds
  println "--> Created sizes."
  createProducts env seeds
  println "--> Created products."
  createStores env seeds
  println "--> Created stores."
  createOrders env
  println "--> Created orders."
  println "--> Done!"

/-! ## Vocabulary of the properties -/

/-- Successful saves of orders recorded in the trace. -/
def savedOrders (w : World) : Nat :=
  w.trace.countP fun c => c.op = .save && c.table = .orders && !c.failed

/-- The two single-row queries of `findProductByColorVariationID` find their
row when asked for the product of `sv`. -/
def ProductResolves (d : Database) (sv : SizeVariation) : Prop :=
  ∃ cv p, d.colorVariations.find? (fun cv => cv.id = sv.colorVariationID) = some cv
    ∧ d.products.find? (fun p => p.id = cv.productID) = some p

/-- Every foreign key of every row inserted so far pointed, when the row was
inserted, at a row present in the store. -/
def Sound (w : World) : Prop := ∀ e ∈ w.journal, e.refsPresent = true

/-- An environment in which nothing fails: no storage error, every path can be
opened and created and every download is empty. URLs are bare paths, which parse to
themselves. -/
def quietEnv : Env :=
  { storageErr := fun _ => false, randInt := fun n => n, fakeText := fun _ => "text",
    clock := fun _ => 0, urlPath := fun u => some u, canOpen := fun _ => true,
    canCreate := fun _ => true,
    httpGet := fun _ => .response [] none, basePath := "/srv" }


/-- The order `o` belongs to a user of `w` and was saved with a creation time
a whole number of hours, fewer than 24, after that user's. -/
def SavedWithinDay (w : World) (o : Order) : Prop :=
  ∃ u ∈ w.db.users, o.userID = u.id
    ∧ ∃ k : Nat, k < 24 ∧ o.createdAt = u.createdAt + (k : Int) * hour

/-- The orders `os` and order items `its` are what rounds of the loop of
`createOrders` added to the tables of `w`, leaving `w2`: one item per order,
ids handed out in increasing order, each order saved within a day after its
user. -/
def OrdersGrown (w w2 : World) (os : List Order) (its : List OrderItem) : Prop :=
  w2.db.orders = w.db.orders ++ os
  ∧ w2.db.orderItems = w.db.orderItems ++ its
  ∧ its.map OrderItem.orderID = os.map Order.id
  ∧ (os.map Order.id).Pairwise (fun a b => a < b)
  ∧ (∀ o ∈ os, ∀ x ∈ w.db.orders.map Order.id, x < o.id)
  ∧ (∀ o ∈ os, SavedWithinDay w o)
  ∧ savedOrders w2 = savedOrders w + os.length

/-- The run of `createOrders` from `w` ended early in `w2`: the orders `os`
were saved, and at most one more was created and not saved. -/
def OrdersCut (w w2 : World) (os pending : List Order) : Prop :=
  w2.db.orders = w.db.orders ++ os ++ pending
  ∧ pending.length ≤ 1
  ∧ (∀ o ∈ os, SavedWithinDay w o)
  ∧ savedOrders w2 = savedOrders w + os.length


/-- An environment that fails the first storage call of the run and no
other. -/
def firstCallFailsEnv : Env :=
  { quietEnv with storageErr := fun n => n == 0 }

/-- A store with one user who has one address, and nothing else. -/
def oneUserWorld : World :=
  { World.empty with
    db := { Database.empty with
      users := [{ id := 1, email := "ann@example.com", name := "Ann", gender := "Female",
                  createdAt := 0 }],
      addresses := [{ id := 1, userID := 1, contactName := "Ann", phone := "555-0100",
                      city := "Leeds", address1 := "1 Main St, Leeds, LS1" }] } }


/-- Image URLs a fixture product declares, over all its color variations. -/
def SeedProduct.imageCount (p : SeedProduct) : Nat :=
  (p.colorVariations.map fun cv => cv.images.length).sum

/-- Pairs of a color-variation entry and a size-variation entry of a fixture
product. -/
def SeedProduct.pairCount (p : SeedProduct) : Nat :=
  p.colorVariations.length * p.sizeVariations.length

/-- The catalog tables of `w2` are those of `w` followed by new rows:
categories, colors and sizes with the given names, and the given numbers of
products, color variations, images and size variations, every new size
variation with available quantity 20. -/
def CatalogGrown (w w2 : World) (cats cols sizs : List String) (np ncv nimg nsv : Nat) : Prop :=
  (∃ rows, w2.db.categories = w.db.categories ++ rows ∧ rows.map Category.name = cats)
  ∧ (∃ rows, w2.db.colors = w.db.colors ++ rows ∧ rows.map Color.name = cols)
  ∧ (∃ rows, w2.db.sizes = w.db.sizes ++ rows ∧ rows.map Size.name = sizs)
  ∧ (∃ rows, w2.db.products = w.db.products ++ rows ∧ rows.length = np)
  ∧ (∃ rows, w2.db.colorVariations = w.db.colorVariations ++ rows ∧ rows.length = ncv)
  ∧ (∃ rows, w2.db.colorVariationImages = w.db.colorVariationImages ++ rows
      ∧ rows.length = nimg)
  ∧ (∃ rows, w2.db.sizeVariations = w.db.sizeVariations ++ rows ∧ rows.length = nsv
      ∧ ∀ sv ∈ rows, sv.availableQuantity = 20)

/-- Every name a fixture product uses is the name of a row of `d`. -/
def NamesResolveIn (d : Database) (p : SeedProduct) : Prop :=
  (∃ c ∈ d.categories, c.name = p.categoryName)
  ∧ (∀ cv ∈ p.colorVariations, ∃ c ∈ d.colors, c.name = cv.colorName)
  ∧ (∀ sv ∈ p.sizeVariations, ∃ s ∈ d.sizes, s.name = sv.sizeName)


/-- The catalog tables of `w2` are those of `w`. -/
def SameCatalog (w w2 : World) : Prop :=
  w2.db.categories = w.db.categories ∧ w2.db.colors = w.db.colors ∧ w2.db.sizes = w.db.sizes
  ∧ w2.db.products = w.db.products ∧ w2.db.colorVariations = w.db.colorVariations
  ∧ w2.db.colorVariationImages = w.db.colorVariationImages
  ∧ w2.db.sizeVariations = w.db.sizeVariations


/-- The fixture of the end-to-end scenario: one category, one color, one
size, and one product that uses them and has no image. -/
def shirtSeeds : SeedData :=
  { categories := [{ name := "Shirts" }],
    colors := [{ name := "Red", code := "#FF0000" }],
    sizes := [{ name := "M", code := "M" }],
    products := [{ categoryName := "Shirts", name := "Oxford Shirt", nameWithSlug := "oxford-shirt",
                   code := "OX1", price := 50, description := "A shirt", madeCountry := "Italy",
                   colorVariations := [{ colorName := "Red", images := [] }],
                   sizeVariations := [{ sizeName := "M" }] }],
    stores := [] }


/-- Five hundred users, with ids 1 to 500. -/
def manyUsers : List User :=
  (List.range 500).map fun i =>
    { id := i + 1, email := "user@example.com", name := "User", gender := "Female",
      createdAt := 0 }

/-- One address for each of the users of `manyUsers`. -/
def manyAddresses : List Address :=
  (List.range 500).map fun i =>
    { id := i + 1, userID := i + 1, contactName := "User", phone := "555-0100",
      city := "Leeds", address1 := "1 Main St, Leeds, LS1" }

/-- A store with 500 users, one address per user, and one product with one
color variation and one size variation. -/
def fullWorld : World :=
  { World.empty with
    db := { Database.empty with
      users := manyUsers,
      addresses := manyAddresses,
      products := [{ id := 1, categoryID := 1, name := "Oxford Shirt",
                     nameWithSlug := "oxford-shirt", code := "OX1", price := 50,
                     description := "A shirt", madeCountry := "Italy" }],
      colorVariations := [{ id := 1, productID := 1, colorID := 1 }],
      sizeVariations := [{ id := 1, colorVariationID := 1, sizeID := 1,
                           availableQuantity := 20 }] } }


/-- The tables a color variation is looked up in or refers to are the same in
`w2` as in `w1`. -/
def SameParents (w1 w2 : World) : Prop :=
  w2.db.categories = w1.db.categories ∧ w2.db.colors = w1.db.colors
  ∧ w2.db.sizes = w1.db.sizes ∧ w2.db.products = w1.db.products

/-- The run from `w1` to `w2` inserted one product for the fixture product
`p`, whose category reference is the id of the first category of `w1` named
as `p` declares. -/
def ProductInserted (w1 w2 : World) (p : SeedProduct) : Prop :=
  ∃ c row, w1.db.categories.find? (fun c => c.name = p.categoryName) = some c
    ∧ w2.db.products = w1.db.products ++ [row]
    ∧ row.categoryID = c.id ∧ row.name = p.name


/-- An environment in which every download fails and nothing else does. -/
def offlineEnv : Env :=
  { quietEnv with httpGet := fun _ => .error "no route to host" }

/-- A store that holds one category, one color and one size. -/
def catalogWorld : World :=
  { World.empty with
    db := { Database.empty with
      categories := [{ id := 1, name := "Shirts" }],
      colors := [{ id := 1, name := "Red", code := "#FF0000" }],
      sizes := [{ id := 1, name := "M", code := "M" }] } }

/-- A fixture with one product that has one color variation with one image
and one size variation. -/
def pictureSeeds : SeedData :=
  { categories := [], colors := [], sizes := [],
    products := [{ categoryName := "Shirts", name := "Oxford Shirt", nameWithSlug := "oxford-shirt",
                   code := "OX1", price := 50, description := "A shirt", madeCountry := "Italy",
                   colorVariations :=
                     [{ colorName := "Red", images := [{ url := "/img/red.jpg" }] }],
                   sizeVariations := [{ sizeName := "M" }] }],
    stores := [] }

/-- An environment in which no file can be created under `tmp/` (the
directory is missing) and nothing else fails. -/
def noTmpEnv : Env :=
  { quietEnv with canCreate := fun _ => false }

/-- An environment in which the third storage call of the run fails and no
other: in `truncateTables` that is the `AutoMigrate` of the first table on
the primary target. -/
def migrateFailsEnv : Env :=
  { quietEnv with storageErr := fun n => n == 2 }

/-- The four storage calls `truncateTables` makes for one table, when none
fails. -/
def resetCalls (t : TableName) : List Call :=
  [{ op := .dropTableIfExists, table := t, draft := false, failed := false },
   { op := .dropTableIfExists, table := t, draft := true, failed := false },
   { op := .autoMigrate, table := t, draft := false, failed := false },
   { op := .autoMigrate, table := t, draft := true, failed := false }]


/-- An environment in which the second storage call of the run fails and no
other: in `createRecords` that is the `Save` of the first user, right after
the first user has been created. -/
def saveFailsEnv : Env :=
  { quietEnv with storageErr := fun n => n == 1 }

/-- An environment in which no path can be opened for reading and nothing
else fails. -/
def unreadableEnv : Env :=
  { quietEnv with canOpen := fun _ => false }

/-- A filesystem that holds the cache directory and nothing else. -/
def tmpDirWorld : World :=
  { World.empty with dirs := ["/srv/tmp/"] }

/-- A filesystem whose cache holds the image of the fixture. -/
def cachedWorld : World :=
  { World.empty with files := [("/srv/tmp/red.jpg", [1, 2, 3])] }

/-! # Properties -/
/-! ## Reasoning about runs -/

@[simp] theorem pure_apply {α : Type} (a : α) (w : World) : (pure a : M α) w = .ok a w := rfl

theorem bind_apply {α β : Type} (m : M α) (f : α → M β) (w : World) :
    (m >>= f) w = match m w with
      | .ok a w1 => f a w1
      | .abort e w1 => .abort e w1 := rfl

@[simp] theorem sat_ok {α : Type} (a : α) (w : World) (Q : α → World → Prop) (A : Exit → World → Prop) :
    (Res.ok a w).sat Q A = Q a w := rfl

@[simp] theorem sat_abort {α : Type} (e : Exit) (w : World) (Q : α → World → Prop)
    (A : Exit → World → Prop) : (Res.abort e w : Res α).sat Q A = A e w := rfl

theorem sat_bind {α β : Type} (m : M α) (f : α → M β) (w : World) (Q : β → World → Prop)
    (A : Exit → World → Prop) :
    ((m >>= f) w).sat Q A ↔ (m w).sat (fun a w1 => (f a w1).sat Q A) A := by
  rw [bind_apply]
  cases m w <;> simp

theorem sat_mono {α : Type} {r : Res α} {Q Q1 : α → World → Prop} {A A1 : Exit → World → Prop}
    (h : r.sat Q A) (hq : ∀ a w, Q a w → Q1 a w) (ha : ∀ e w, A e w → A1 e w) : r.sat Q1 A1 := by
  cases r with
  | ok a w => exact hq a w h
  | abort e w => exact ha e w h

theorem sat_noabort {α : Type} {r : Res α} {Q : α → World → Prop}
    (h : r.sat Q (fun _ _ => False)) : r.exit = none ∧ ∃ a, r = .ok a r.world ∧ Q a r.world := by
  cases r with
  | ok a w => exact ⟨rfl, a, rfl, h⟩
  | abort e w => exact absurd h (by simp)

theorem sat_elim {α : Type} {r : Res α} {Q : α → World → Prop} {A : Exit → World → Prop}
    (h : r.sat Q A) :
    (r.exit = none ∧ ∃ a, Q a r.world) ∨ (∃ e, r.exit = some e ∧ A e r.world) := by
  cases r with
  | ok a w => exact Or.inl ⟨rfl, a, h⟩
  | abort e w => exact Or.inr ⟨e, rfl, h⟩

theorem sat_and {α : Type} {r : Res α} {Q1 Q2 : α → World → Prop} {A1 A2 : Exit → World → Prop}
    (h1 : r.sat Q1 A1) (h2 : r.sat Q2 A2) :
    r.sat (fun a w => Q1 a w ∧ Q2 a w) (fun e w => A1 e w ∧ A2 e w) := by
  cases r with
  | ok a w => exact ⟨h1, h2⟩
  | abort e w => exact ⟨h1, h2⟩

theorem sat_world {α : Type} (P : World → Prop) {r : Res α}
    (h : r.sat (fun _ w => P w) (fun _ w => P w)) : P r.world := by
  cases r with
  | ok a w => exact h
  | abort e w => exact h

theorem sat_loopFrom (body : Nat → M Unit) (I : Nat → World → Prop) (A : Exit → World → Prop) :
    ∀ (count start : Nat) (w : World), I start w →
      (∀ j w1, start ≤ j → j < start + count → I j w1 →
        (body j w1).sat (fun _ w2 => I (j + 1) w2) A) →
      (loopFrom start count body w).sat (fun _ w1 => I (start + count) w1) A := by
  intro count
  induction count with
  | zero => intro start w h0 _; simpa [loopFrom] using h0
  | succ k ih =>
    intro start w h0 hstep
    unfold loopFrom
    rw [sat_bind]
    refine sat_mono (hstep start w (le_refl _) (by omega) h0) ?_ (fun _ _ h => h)
    intro _ w1 h1
    have := ih (start + 1) w1 h1 (fun j w2 hj hlt => hstep j w2 (by omega) (by omega))
    rw [show start + (k + 1) = start + 1 + k by omega]
    exact this

theorem sat_forEachIdx {α : Type} (body : Nat → α → M Unit) (I : Nat → World → Prop)
    (A : Exit → World → Prop) :
    ∀ (xs : List α) (start : Nat) (w : World), I start w →
      (∀ j x w1, xs[j]? = some x → I (start + j) w1 →
        (body (start + j) x w1).sat (fun _ w2 => I (start + j + 1) w2) A) →
      (forEachIdx start xs body w).sat (fun _ w1 => I (start + xs.length) w1) A := by
  intro xs
  induction xs with
  | nil => intro start w h0 _; simpa [forEachIdx] using h0
  | cons x rest ih =>
    intro start w h0 hstep
    unfold forEachIdx
    rw [sat_bind]
    refine sat_mono (hstep 0 x w (by simp) (by simpa using h0)) ?_ (fun _ _ h => h)
    intro _ w1 h1
    have := ih (start + 1) w1 (by simpa using h1) (fun j y w2 hy hI => by
      have := hstep (j + 1) y w2 (by simpa using hy) (by rw [← Nat.add_assoc, Nat.add_right_comm]; exact hI)
      rw [show start + 1 + j = start + (j + 1) by omega]
      exact this)
    rw [show start + (x :: rest).length = start + 1 + rest.length by simp; omega]
    exact this

theorem sat_forEach {α : Type} (body : α → M Unit) (I : Nat → World → Prop)
    (A : Exit → World → Prop) :
    ∀ (xs : List α) (start : Nat) (w : World), I start w →
      (∀ j x w1, xs[j]? = some x → I (start + j) w1 →
        (body x w1).sat (fun _ w2 => I (start + j + 1) w2) A) →
      (forEach xs body w).sat (fun _ w1 => I (start + xs.length) w1) A := by
  intro xs
  induction xs with
  | nil => intro start w h0 _; simpa [forEach] using h0
  | cons x rest ih =>
    intro start w h0 hstep
    unfold forEach
    rw [sat_bind]
    refine sat_mono (hstep 0 x w (by simp) (by simpa using h0)) ?_ (fun _ _ h => h)
    intro _ w1 h1
    have := ih (start + 1) w1 (by simpa using h1) (fun j y w2 hy hI => by
      have := hstep (j + 1) y w2 (by simpa using hy) (by rw [← Nat.add_assoc, Nat.add_right_comm]; exact hI)
      rw [show start + 1 + j = start + (j + 1) by omega]
      exact this)
    rw [show start + (x :: rest).length = start + 1 + rest.length by simp; omega]
    exact this

/-- A loop keeps what every round keeps. -/
theorem sat_forEach_inv {α : Type} (body : α → M Unit) (I : World → Prop) (A : Exit → World → Prop)
    (xs : List α) (w : World) (h0 : I w)
    (hstep : ∀ x ∈ xs, ∀ w1, I w1 → (body x w1).sat (fun _ w2 => I w2) A) :
    (forEach xs body w).sat (fun _ w1 => I w1) A := by
  have := sat_forEach body (fun _ => I) A xs 0 w h0 (fun j x w1 hx hI =>
    hstep x (List.getElem?_mem hx) w1 hI)
  exact this

/-! ## Primitive steps -/

@[simp] theorem logCall_db (w : World) (op : Op) (t : TableName) (draft failed : Bool) :
    (w.logCall op t draft failed).db = w.db := rfl

@[simp] theorem logCall_journal (w : World) (op : Op) (t : TableName) (draft failed : Bool) :
    (w.logCall op t draft failed).journal = w.journal := rfl

@[simp] theorem logCall_files (w : World) (op : Op) (t : TableName) (draft failed : Bool) :
    (w.logCall op t draft failed).files = w.files := rfl

@[simp] theorem logInsert_db (w : World) (t : TableName) (id : Nat) (refs : Bool) :
    (w.logInsert t id refs).db = w.db := rfl

theorem sat_orFatal_storage {α : Type} (msg : String) (env : Env) (op : Op) (t : TableName)
    (draft : Bool) (run : World → α × World) (w : World) (Q : α → World → Prop)
    (A : Exit → World → Prop) :
    (orFatal msg (storage env op t draft run) w).sat Q A ↔
      if env.storageErr w.trace.length = true then A (.fatal msg) (w.logCall op t draft true)
      else Q (run w).1 ((run w).2.logCall op t draft false) := by
  unfold orFatal storage
  by_cases h : env.storageErr w.trace.length = true <;> simp [h]

theorem sat_orPanic_storage {α : Type} (env : Env) (op : Op) (t : TableName)
    (draft : Bool) (run : World → α × World) (w : World) (Q : α → World → Prop)
    (A : Exit → World → Prop) :
    (orPanic (storage env op t draft run) w).sat Q A ↔
      if env.storageErr w.trace.length = true then A (.panic storageError) (w.logCall op t draft true)
      else Q (run w).1 ((run w).2.logCall op t draft false) := by
  unfold orPanic storage
  by_cases h : env.storageErr w.trace.length = true <;> simp [h]

theorem sat_ignoreErr_storage {α : Type} (env : Env) (op : Op) (t : TableName)
    (draft : Bool) (run : World → α × World) (w : World) (Q : Unit → World → Prop)
    (A : Exit → World → Prop) :
    (ignoreErr (storage env op t draft run) w).sat Q A ↔
      if env.storageErr w.trace.length = true then Q () (w.logCall op t draft true)
      else Q () ((run w).2.logCall op t draft false) := by
  unfold ignoreErr storage
  by_cases h : env.storageErr w.trace.length = true <;> simp [h]

theorem sat_orFatal_dbSingle {α : Type} (msg : String) (env : Env) (op : Op) (t : TableName)
    (rows : World → List α) (p : α → Bool) (w : World) (Q : α → World → Prop)
    (A : Exit → World → Prop) :
    (orFatal msg (dbSingle env op t rows p) w).sat Q A ↔
      if env.storageErr w.trace.length = true then A (.fatal msg) (w.logCall op t false true)
      else (∀ r, (rows w).find? p = some r → Q r (w.logCall op t false false))
        ∧ ((rows w).find? p = none → A (.fatal msg) (w.logCall op t false true)) := by
  unfold orFatal dbSingle
  by_cases h : env.storageErr w.trace.length = true
  · simp [h]
  · cases hf : (rows w).find? p <;> simp [h, hf]

@[simp] theorem sat_randIntn (env : Env) (n : Nat) (w : World) (Q : Nat → World → Prop)
    (A : Exit → World → Prop) :
    (randIntn env n w).sat Q A
      ↔ Q (env.randInt w.randDraws % n) { w with randDraws := w.randDraws + 1 } := by
  simp [randIntn]

@[simp] theorem sat_fake (env : Env) (w : World) (Q : String → World → Prop)
    (A : Exit → World → Prop) :
    (fake env w).sat Q A ↔ Q (env.fakeText w.fakeDraws) { w with fakeDraws := w.fakeDraws + 1 } := by
  simp [fake]

@[simp] theorem sat_timeNow (env : Env) (w : World) (Q : Int → World → Prop)
    (A : Exit → World → Prop) : (timeNow env w).sat Q A ↔ Q (env.clock w.trace.length) w := by
  simp [timeNow]

@[simp] theorem sat_println (line : String) (w : World) (Q : Unit → World → Prop)
    (A : Exit → World → Prop) :
    (println line w).sat Q A ↔ Q () { w with stdout := w.stdout ++ [line] } := by
  simp [println]

@[simp] theorem sat_goPanic {α : Type} (msg : String) (w : World) (Q : α → World → Prop)
    (A : Exit → World → Prop) : (goPanic msg w : Res α).sat Q A ↔ A (.panic msg) w := by
  simp [goPanic]

@[simp] theorem sat_effect {α : Type} (f : World → α × World) (w : World)
    (Q : α → World → Prop) (A : Exit → World → Prop) :
    (effect f w).sat Q A ↔ Q (f w).1 (f w).2 := by
  simp [effect]

@[simp] theorem sat_pure {α : Type} (a : α) (w : World) (Q : α → World → Prop)
    (A : Exit → World → Prop) : ((pure a : M α) w).sat Q A ↔ Q a w := by
  simp

/-- The fetch of a file touches neither the tables nor the records of the
storage calls. -/
theorem openFileByURL_frame (env : Env) (url : String) (w : World) :
    (openFileByURL env url w).2.db = w.db ∧ (openFileByURL env url w).2.trace = w.trace
      ∧ (openFileByURL env url w).2.journal = w.journal := by
  unfold openFileByURL
  cases env.urlPath url with
  | none => simp
  | some path =>
    simp only
    split_ifs
    · simp
    · simp
    · cases env.httpGet url with
      | error msg => simp
      | response delivered copyErr => cases copyErr <;> simp

@[simp] theorem openFileByURL_db (env : Env) (url : String) (w : World) :
    (openFileByURL env url w).2.db = w.db := (openFileByURL_frame env url w).1

@[simp] theorem openFileByURL_trace (env : Env) (url : String) (w : World) :
    (openFileByURL env url w).2.trace = w.trace := (openFileByURL_frame env url w).2.1

@[simp] theorem openFileByURL_journal (env : Env) (url : String) (w : World) :
    (openFileByURL env url w).2.journal = w.journal := (openFileByURL_frame env url w).2.2

/-! ## Storage facts -/

theorem lt_nextID (ids : List Nat) : ∀ i ∈ ids, i < nextID ids := by
  induction ids with
  | nil => simp
  | cons a t ih =>
    intro i hi
    simp only [nextID, List.foldr_cons] at ih ⊢
    rcases List.mem_cons.mp hi with h | h
    · omega
    · have := ih i h
      omega

theorem upsert_last {α : Type} (key : α → Nat) (row row1 : α) (rows : List α)
    (hk : key row1 = key row) (hfresh : ∀ r ∈ rows, key r ≠ key row) :
    upsert key row1 (rows ++ [row]) = rows ++ [row1] := by
  unfold upsert
  have hmem : key row1 ∈ (rows ++ [row]).map key := by simp [hk]
  rw [if_pos hmem]
  simp only [List.map_append, List.map_cons, List.map_nil, hk, if_true]
  congr 1
  conv_rhs => rw [← List.map_id rows]
  apply List.map_congr_left
  intro r hr
  simp [hfresh r hr]

theorem upsert_fresh {α : Type} (key : α → Nat) (row row1 : α) (rows : List α)
    (hk : key row1 = key row) (hid : key row = nextID (rows.map key)) :
    upsert key row1 (rows ++ [row]) = rows ++ [row1] := by
  apply upsert_last key row row1 rows hk
  intro r hr
  have := lt_nextID (rows.map key) (key r) (List.mem_map_of_mem key hr)
  omega

/-- Appending one row to a table that extends `l0` by `us`. -/
theorem snoc_ext {α : Type} {l l0 us : List α} (r : α) (P : List α → Prop) (h : l = l0 ++ us)
    (hp : P (us ++ [r])) : ∃ us1, l ++ [r] = l0 ++ us1 ∧ P us1 :=
  ⟨us ++ [r], by rw [h, List.append_assoc], hp⟩

/-! ## Users -/

/-- The gender `createUsers` gives the user of index `i`. -/
theorem gender_get (i : Nat) (h : i % 2 < ["Female", "Male"].length) :
    ["Female", "Male"][i % 2] = if i % 2 = 0 then "Female" else "Male" := by
  rcases Nat.mod_two_eq_zero_or_one i with h0 | h0
  · simp [h0]
  · simp [h0]

theorem createUsers_run (env : Env) (hok : ∀ n, env.storageErr n = false) (w : World) :
    (createUsers env w).sat (fun _ w1 => ∃ us : List User,
        w1.db.users = w.db.users ++ us ∧
        us.map User.gender = (List.range' 0 500).map fun i => if i % 2 = 0 then "Female" else "Male")
      (fun _ _ => False) := by
  have := sat_loopFrom (fun i => (do
      let email ← fake env
      let name ← fake env
      let gender := ["Female", "Male"].get ⟨i % 2, Nat.mod_lt i (by decide)⟩
      let user : User := { id := 0, email := email, name := name, gender := gender, createdAt := 0 }
      let user ← orFatal "create user failure" (dbCreateUser env user)
      let t ← randTime env
      let user := { user with createdAt := t }
      orFatal "Save user failure" (dbSaveUser env user) : M Unit))
    (fun k w1 => ∃ us : List User,
        w1.db.users = w.db.users ++ us ∧
        us.map User.gender = (List.range' 0 k).map fun i => if i % 2 = 0 then "Female" else "Male")
    (fun _ _ => False) 500 0 w ⟨[], by simp⟩ (by
      intro j w1 _ _ ⟨us, hdb, hg⟩
      simp only [sat_bind, sat_orFatal_storage, dbCreateUser, dbSaveUser, randTime]
      simp [hok, World.logCall, World.logInsert]
      rw [upsert_fresh]
      · refine snoc_ext _ _ hdb ?_
        simp [hg, List.range'_concat, gender_get]
      · rfl
      · rfl)
  simpa [createUsers] using this

/-- C9. With every storage call succeeding, `createUsers` completes and
appends exactly 500 users to the table; the user of index `i` is "Female" when
`i` is even and "Male" when `i` is odd, so two consecutive users differ in
gender. -/
theorem createUsers_gender_alternates (env : Env) (w : World)
    (hok : ∀ n, env.storageErr n = false) :
    (createUsers env w).exit = none
    ∧ ∃ us : List User, (createUsers env w).world.db.users = w.db.users ++ us
      ∧ us.length = 500
      ∧ (∀ i (u : User), us[i]? = some u → u.gender = if i % 2 = 0 then "Female" else "Male")
      ∧ (∀ i (u v : User), us[i]? = some u → us[i + 1]? = some v → u.gender ≠ v.gender) := by
  obtain ⟨hex, _, _, us, hus, hg⟩ := sat_noabort (createUsers_run env hok w)
  have hlen : us.length = 500 := by
    have := congrArg List.length hg
    simpa using this
  have hget : ∀ i (u : User), us[i]? = some u →
      u.gender = if i % 2 = 0 then "Female" else "Male" := by
    intro i u hu
    have hi : i < 500 := by
      have := (List.getElem?_eq_some.mp hu).1
      omega
    have h1 : (us.map User.gender)[i]? = some u.gender := by
      rw [List.getElem?_map, hu]
      rfl
    rw [hg, List.getElem?_map, List.getElem?_range' _ _ hi] at h1
    simpa using h1.symm
  refine ⟨hex, us, hus, hlen, hget, ?_⟩
  intro i u v hu hv
  rw [hget i u hu, hget (i + 1) v hv]
  rcases Nat.mod_two_eq_zero_or_one i with h | h
  · have h2 : (i + 1) % 2 = 1 := by omega
    simp [h, h2]
  · have h2 : (i + 1) % 2 = 0 := by omega
    simp [h, h2]

/-- C9, witness: a run of `createUsers` on empty tables in an environment that
fails nothing. -/
theorem createUsers_gender_alternates_witness :
    (∀ n, quietEnv.storageErr n = false)
    ∧ (createUsers quietEnv World.empty).exit = none
    ∧ ∃ us : List User, (createUsers quietEnv World.empty).world.db.users = World.empty.db.users ++ us
      ∧ us.length = 500 :=
  ⟨fun _ => rfl,
    (createUsers_gender_alternates quietEnv World.empty (fun _ => rfl)).1,
    (createUsers_gender_alternates quietEnv World.empty (fun _ => rfl)).2.elim
      fun us h => ⟨us, h.1, h.2.1⟩⟩

/-! ## Time -/

theorem hours_small (k : Nat) (hk : k < 24) : hours (k : Int) = (k : Int) * hour := by
  unfold hours wrap64 hour
  norm_num
  omega

/-! ## Orders -/

/-- One round of the loop of `createOrders`, in any environment. -/
theorem createOrder_sat (env : Env) (svs : List SizeVariation) (i : Nat) (u : UserWithAddresses)
    (w1 : World) :
    (createOrder env svs i u w1).sat
      (fun _ w2 => ∃ o it, w2.db.orders = w1.db.orders ++ [o]
        ∧ w2.db.orderItems = w1.db.orderItems ++ [it]
        ∧ o.id = nextID (w1.db.orders.map Order.id) ∧ it.orderID = o.id
        ∧ o.userID = u.user.id
        ∧ (∃ k : Nat, k < 24 ∧ o.createdAt = u.user.createdAt + (k : Int) * hour)
        ∧ savedOrders w2 = savedOrders w1 + 1)
      (fun _ w2 => (w2.db.orders = w1.db.orders ∨ ∃ o, w2.db.orders = w1.db.orders ++ [o])
        ∧ savedOrders w2 = savedOrders w1) := by
  obtain ⟨user, addrs⟩ := u
  cases addrs with
  | nil => simp [createOrder]
  | cons address rest =>
    by_cases hsv : svs.length = 0
    · simp only [createOrder, hsv, dite_true, sat_bind, sat_orFatal_storage, dbCreateOrder]
      split_ifs <;> simp [savedOrders, World.logCall, World.logInsert]
    · simp only [createOrder, hsv, dite_false, sat_bind, findProductByColorVariationID,
        sat_orFatal_storage, sat_orFatal_dbSingle, dbCreateOrder, dbFindColorVariation, dbFindProduct,
        dbCreateOrderItem, dbSaveOrder, sat_randIntn]
      simp [savedOrders, World.logCall, World.logInsert]
      intro _ _ cv _ _ p _ _ _
      rw [upsert_fresh Order.id _ _ _ (by rfl) (by rfl)]
      refine ⟨_, rfl, rfl, rfl, rfl, env.randInt w1.randDraws % 24, Nat.mod_lt _ (by decide), ?_⟩
      have hh := hours_small _ (Nat.mod_lt (env.randInt w1.randDraws) (by decide : 0 < 24))
      push_cast at hh
      simp [hh]

theorem OrdersGrown.step {w w1 w2 : World} {os : List Order} {its : List OrderItem}
    (h : OrdersGrown w w1 os its) (o : Order) (it : OrderItem) (u : User) (hu : u ∈ w.db.users)
    (ho : w2.db.orders = w1.db.orders ++ [o]) (hi : w2.db.orderItems = w1.db.orderItems ++ [it])
    (hid : o.id = nextID (w1.db.orders.map Order.id)) (hit : it.orderID = o.id)
    (hou : o.userID = u.id)
    (hk : ∃ k : Nat, k < 24 ∧ o.createdAt = u.createdAt + (k : Int) * hour)
    (hs : savedOrders w2 = savedOrders w1 + 1) :
    OrdersGrown w w2 (os ++ [o]) (its ++ [it]) := by
  obtain ⟨h1, h2, h3, h4, h5, h6, h7⟩ := h
  have hlt : ∀ x ∈ w1.db.orders.map Order.id, x < o.id := by
    intro x hx
    rw [hid]
    exact lt_nextID _ x hx
  refine ⟨by rw [ho, h1, List.append_assoc], by rw [hi, h2, List.append_assoc], ?_, ?_, ?_, ?_, ?_⟩
  · simp [h3, hit]
  · rw [List.map_append, List.pairwise_append]
    refine ⟨h4, by simp, ?_⟩
    intro a ha b hb
    simp only [List.map_cons, List.map_nil, List.mem_singleton] at hb
    subst hb
    apply hlt
    rw [h1]
    simp only [List.map_append, List.mem_append]
    exact Or.inr ha
  · intro o1 ho1 x hx
    rcases List.mem_append.mp ho1 with hm | hm
    · exact h5 o1 hm x hx
    · simp only [List.mem_singleton] at hm
      subst hm
      apply hlt
      rw [h1]
      simp only [List.map_append, List.mem_append]
      exact Or.inl hx
  · intro o1 ho1
    rcases List.mem_append.mp ho1 with hm | hm
    · exact h6 o1 hm
    · simp only [List.mem_singleton] at hm
      subst hm
      exact ⟨u, hu, hou, hk⟩
  · rw [hs, h7]
    simp
    omega

/-- The whole of `createOrders`, in any environment: what it leaves in the
tables when it completes and when it ends early. -/
theorem createOrders_sat (env : Env) (w : World) :
    (createOrders env w).sat
      (fun _ w2 => ∃ os its, OrdersGrown w w2 os its ∧ os.length = (w.db.users.take 480).length)
      (fun _ w2 => ∃ os pending, OrdersCut w w2 os pending) := by
  simp only [createOrders, sat_bind, sat_orFatal_storage, dbFindUsersWithAddresses,
    dbFindSizeVariations]
  split_ifs with h1 h2
  · exact ⟨[], [], by simp [OrdersCut, savedOrders, World.logCall]⟩
  · exact ⟨[], [], by simp [OrdersCut, savedOrders, World.logCall]⟩
  · have hloop := sat_forEachIdx (createOrder env w.db.sizeVariations)
      (fun k w2 => ∃ os its, OrdersGrown w w2 os its ∧ os.length = k)
      (fun _ w2 => ∃ os pending, OrdersCut w w2 os pending)
      ((w.db.users.take 480).map fun u =>
        { user := u, addresses := w.db.addresses.filter fun a => a.userID = u.id })
      0 ((w.logCall .find .users false false).logCall .find .sizeVariations false false)
      ⟨[], [], by simp [OrdersGrown, savedOrders, World.logCall], rfl⟩
      (by
        intro j x w1 hx ⟨os, its, hg, hlen⟩
        have hmem : x.user ∈ w.db.users := by
          have := List.getElem?_mem hx
          simp only [List.mem_map] at this
          obtain ⟨u, hu, rfl⟩ := this
          exact List.mem_of_mem_take hu
        refine sat_mono (createOrder_sat env _ _ x w1) ?_ ?_
        · intro _ w2 ⟨o, it, ho, hi, hid, hit, hou, hk, hs⟩
          exact ⟨os ++ [o], its ++ [it], hg.step o it x.user hmem ho hi hid hit hou hk hs,
            by simp [hlen]⟩
        · intro _ w2 ⟨ho, hs⟩
          obtain ⟨h1, _, _, _, _, h6, h7⟩ := hg
          rcases ho with ho | ⟨o, ho⟩
          · exact ⟨os, [], by rw [ho, h1]; simp, by simp, h6, by rw [hs, h7]⟩
          · exact ⟨os, [o], by rw [ho, h1], by simp, h6, by rw [hs, h7]⟩)
    simpa using hloop

/-- One round of the loop of `createOrders` completes when the storage fails
no call, the user has an address, and the product of the size variation of
the round can be found. -/
theorem createOrder_ok (env : Env) (hok : ∀ n, env.storageErr n = false)
    (svs : List SizeVariation) (i : Nat) (u : UserWithAddresses) (w1 : World)
    (ha : u.addresses ≠ []) (hsv : svs ≠ [])
    (hres : ∀ sv, svs[i % svs.length]? = some sv → ProductResolves w1.db sv) :
    (createOrder env svs i u w1).sat
      (fun _ w2 => w2.db.colorVariations = w1.db.colorVariations ∧ w2.db.products = w1.db.products)
      (fun _ _ => False) := by
  obtain ⟨user, addrs⟩ := u
  cases addrs with
  | nil => exact absurd rfl ha
  | cons address rest =>
    have hlen : ¬ svs.length = 0 := by
      intro h
      exact hsv (List.length_eq_zero.mp h)
    have hlt : i % svs.length < svs.length := Nat.mod_lt _ (Nat.pos_of_ne_zero hlen)
    obtain ⟨cv, p, hcv, hp⟩ := hres _ (List.getElem?_eq_getElem hlt)
    simp only [createOrder, hlen, dite_false, sat_bind, findProductByColorVariationID,
      sat_orFatal_storage, sat_orFatal_dbSingle, dbCreateOrder, dbFindColorVariation, dbFindProduct,
      dbCreateOrderItem, dbSaveOrder, sat_randIntn]
    simp [hok, World.logCall, World.logInsert, hcv, hp]
    exact ⟨p, List.mem_of_find?_eq_some hp, by simpa using List.find?_some hp⟩

/-- The run of `createOrders` completes when the storage fails no call, every
user has an address, there is a size variation, and the product of each size
variation the loop picks can be found. -/
theorem createOrders_ok (env : Env) (hok : ∀ n, env.storageErr n = false) (w : World)
    (haddr : ∀ u ∈ w.db.users.take 480, ∃ a ∈ w.db.addresses, a.userID = u.id)
    (hsv : w.db.sizeVariations ≠ [])
    (hfind : ∀ i, i < 480 → ∀ sv,
      w.db.sizeVariations[i % w.db.sizeVariations.length]? = some sv → ProductResolves w.db sv) :
    (createOrders env w).sat (fun _ _ => True) (fun _ _ => False) := by
  simp only [createOrders, sat_bind, sat_orFatal_storage, dbFindUsersWithAddresses,
    dbFindSizeVariations]
  simp only [hok, Bool.false_eq_true, if_false]
  have hloop := sat_forEachIdx (createOrder env w.db.sizeVariations)
    (fun _ w2 => w2.db.colorVariations = w.db.colorVariations ∧ w2.db.products = w.db.products)
    (fun _ _ => False)
    ((w.db.users.take 480).map fun u =>
      { user := u, addresses := w.db.addresses.filter fun a => a.userID = u.id })
    0 ((w.logCall .find .users false false).logCall .find .sizeVariations false false)
    (by simp [World.logCall])
    (by
      intro j x w1 hx ⟨hcv, hp⟩
      have hj : j < 480 := by
        have := (List.getElem?_eq_some.mp hx).1
        simp only [List.length_map, List.length_take] at this
        omega
      have hxa : x.addresses ≠ [] := by
        have := List.getElem?_mem hx
        simp only [List.mem_map] at this
        obtain ⟨u, hu, rfl⟩ := this
        obtain ⟨a, ha, hau⟩ := haddr u hu
        intro hnil
        have hm : a ∈ w.db.addresses.filter fun a => a.userID = u.id := by
          simp [List.mem_filter, ha, hau]
        simp only at hnil
        rw [hnil] at hm
        exact absurd hm (List.not_mem_nil _)
      refine sat_mono (createOrder_ok env hok _ _ x w1 hxa hsv ?_) ?_ (fun _ _ h => h)
      · intro sv hsvj
        obtain ⟨cv, p, h1, h2⟩ := hfind j hj sv (by simpa using hsvj)
        exact ⟨cv, p, by rw [hcv]; exact h1, by rw [hp]; exact h2⟩
      · intro _ w2 ⟨h1, h2⟩
        exact ⟨by rw [h1, hcv], by rw [h2, hp]⟩)
  exact sat_mono hloop (fun _ _ _ => trivial) (fun _ _ h => h)

theorem filter_orderID_length (its : List OrderItem) (x : Nat) :
    (its.filter fun it => it.orderID = x).length = (its.map OrderItem.orderID).count x := by
  induction its with
  | nil => simp
  | cons it rest ih =>
    by_cases h : it.orderID = x
    · simp [List.filter_cons, h, ih]
    · have h2 : ¬ (it.orderID == x) = true := by simpa using h
      simp [List.filter_cons, h, ih, List.count_cons, h2]

/-- C1. From a store with 500 users, each with an address, and at least one
size variation, when every storage call succeeds (the environment fails none
and the product of each size variation the loop picks can be found),
`createOrders` completes, inserts exactly 480 orders and exactly 480 order
items, and each inserted order is referenced by exactly one inserted order
item; when the order items already in the store referenced orders in the
store, that item is the only one in the whole table. -/
theorem createOrders_inserts_480 (env : Env) (w : World)
    (hok : ∀ n, env.storageErr n = false)
    (husers : w.db.users.length = 500)
    (haddr : ∀ u ∈ w.db.users, ∃ a ∈ w.db.addresses, a.userID = u.id)
    (hsv : w.db.sizeVariations ≠ [])
    (hfind : ∀ i, i < 480 → ∀ sv,
      w.db.sizeVariations[i % w.db.sizeVariations.length]? = some sv → ProductResolves w.db sv) :
    (createOrders env w).exit = none
    ∧ ∃ os its, (createOrders env w).world.db.orders = w.db.orders ++ os
      ∧ (createOrders env w).world.db.orderItems = w.db.orderItems ++ its
      ∧ os.length = 480 ∧ its.length = 480
      ∧ (∀ o ∈ os, (its.filter fun it => it.orderID = o.id).length = 1)
      ∧ ((∀ it ∈ w.db.orderItems, it.orderID ∈ w.db.orders.map Order.id) →
          ∀ o ∈ os, ((createOrders env w).world.db.orderItems.filter
            fun it => it.orderID = o.id).length = 1) := by
  have hno := createOrders_ok env hok w (fun u hu => haddr u (List.mem_of_mem_take hu)) hsv hfind
  have hex : (createOrders env w).exit = none := (sat_noabort hno).1
  rcases sat_elim (createOrders_sat env w) with ⟨_, _, os, its, hg, hlen⟩ | ⟨e, hne, _⟩
  · obtain ⟨h1, h2, h3, h4, h5, _, _⟩ := hg
    have hos : os.length = 480 := by
      rw [hlen, List.length_take, husers]
      rfl
    have hits : its.length = 480 := by
      have := congrArg List.length h3
      simp only [List.length_map] at this
      omega
    have hone : ∀ o ∈ os, (its.filter fun it => it.orderID = o.id).length = 1 := by
      intro o ho
      rw [filter_orderID_length, h3]
      apply List.count_eq_one_of_mem
      · exact h4.imp (fun h => Nat.ne_of_lt h)
      · exact List.mem_map_of_mem _ ho
    refine ⟨hex, os, its, h1, h2, hos, hits, hone, ?_⟩
    intro hint o ho
    rw [h2, List.filter_append, List.length_append, hone o ho]
    have : (w.db.orderItems.filter fun it => it.orderID = o.id) = [] := by
      rw [List.filter_eq_nil_iff]
      intro it hit
      have := h5 o ho _ (hint it hit)
      simp only [decide_eq_true_eq]
      omega
    rw [this]
    rfl
  · rw [hex] at hne
    exact absurd hne (by simp)

/-- C2. In any environment and from any store, the orders `createOrders` saved
(as many as the trace records successful saves of orders) follow the orders
already in the store, at most one created and unsaved order follows them and
none when the run completes, and each saved order belongs to a user of the
store whose created-at it does not precede and exceeds by less than 24
hours. -/
theorem createOrders_createdAt_within_day (env : Env) (w : World) :
    ∃ saved pending : List Order,
      (createOrders env w).world.db.orders = w.db.orders ++ saved ++ pending
      ∧ savedOrders (createOrders env w).world = savedOrders w + saved.length
      ∧ pending.length ≤ 1
      ∧ ((createOrders env w).exit = none →
          pending = [] ∧ saved.length = (w.db.users.take 480).length)
      ∧ ∀ o ∈ saved, ∃ u ∈ w.db.users, o.userID = u.id ∧ u.createdAt ≤ o.createdAt
          ∧ 0 ≤ o.createdAt - u.createdAt ∧ o.createdAt - u.createdAt < 24 * hour := by
  have hday : ∀ o, SavedWithinDay w o → ∃ u ∈ w.db.users, o.userID = u.id
      ∧ u.createdAt ≤ o.createdAt ∧ 0 ≤ o.createdAt - u.createdAt
      ∧ o.createdAt - u.createdAt < 24 * hour := by
    intro o ⟨u, hu, hid, k, hk, hc⟩
    refine ⟨u, hu, hid, ?_, ?_, ?_⟩ <;> rw [hc] <;> unfold hour <;> omega
  rcases sat_elim (createOrders_sat env w) with ⟨hex, _, os, its, hg, hlen⟩ | ⟨e, hne, os, pending, hc⟩
  · obtain ⟨h1, _, _, _, _, h6, h7⟩ := hg
    exact ⟨os, [], by rw [h1]; simp, h7, by simp, fun _ => ⟨rfl, hlen⟩,
      fun o ho => hday o (h6 o ho)⟩
  · obtain ⟨h1, h2, h3, h4⟩ := hc
    exact ⟨os, pending, h1, h4, h2, fun h => absurd (hne.symm.trans h) (by simp), fun o ho => hday o (h3 o ho)⟩

/-- C1, witness: a store with 500 users, their addresses and one size
variation, in an environment that fails nothing. -/
theorem createOrders_inserts_480_witness :
    fullWorld.db.users.length = 500
    ∧ (createOrders quietEnv fullWorld).exit = none
    ∧ ∃ os its, (createOrders quietEnv fullWorld).world.db.orders = fullWorld.db.orders ++ os
      ∧ (createOrders quietEnv fullWorld).world.db.orderItems = fullWorld.db.orderItems ++ its
      ∧ os.length = 480 ∧ its.length = 480 := by
  have hU : fullWorld.db.users = manyUsers := by rw [fullWorld]
  have hA : fullWorld.db.addresses = manyAddresses := by rw [fullWorld]
  have hS : fullWorld.db.sizeVariations
      = [{ id := 1, colorVariationID := 1, sizeID := 1, availableQuantity := 20 }] := by
    rw [fullWorld]
  have hC : fullWorld.db.colorVariations = [{ id := 1, productID := 1, colorID := 1 }] := by
    rw [fullWorld]
  have hP : fullWorld.db.products
      = [{ id := 1, categoryID := 1, name := "Oxford Shirt", nameWithSlug := "oxford-shirt",
           code := "OX1", price := 50, description := "A shirt", madeCountry := "Italy" }] := by
    rw [fullWorld]
  have h1 : fullWorld.db.users.length = 500 := by
    rw [hU, manyUsers, List.length_map, List.length_range]
  have h2 : ∀ u ∈ fullWorld.db.users, ∃ a ∈ fullWorld.db.addresses, a.userID = u.id := by
    rw [hU, hA, manyUsers, manyAddresses]
    intro u hu
    obtain ⟨i, hi, hiu⟩ := List.mem_map.mp hu
    exact ⟨_, List.mem_map.mpr ⟨i, hi, rfl⟩, by rw [← hiu]⟩
  have h3 : fullWorld.db.sizeVariations ≠ [] := by
    rw [hS]
    exact List.cons_ne_nil _ _
  have h4 : ∀ i, i < 480 → ∀ sv,
      fullWorld.db.sizeVariations[i % fullWorld.db.sizeVariations.length]? = some sv →
        ProductResolves fullWorld.db sv := by
    unfold ProductResolves
    rw [hS, hC, hP]
    intro i _ sv hsv
    simp only [List.length_singleton, Nat.mod_one, List.getElem?_cons_zero,
      Option.some.injEq] at hsv
    subst hsv
    exact ⟨_, _, rfl, rfl⟩
  obtain ⟨hex, os, its, h5, h6, h7, h8, _⟩ :=
    createOrders_inserts_480 quietEnv fullWorld (fun _ => rfl) h1 h2 h3 h4
  exact ⟨h1, hex, os, its, h5, h6, h7, h8⟩

/-- C10, counterexample. With one user who has an address and no size
variation, when the first query of `createOrders` returns an error the run
ends in `log.Fatalf` and no order has been inserted. -/
theorem createOrders_fatal_before_first_order :
    (createOrders firstCallFailsEnv oneUserWorld).exit = some (.fatal "query users failure")
    ∧ (createOrders firstCallFailsEnv oneUserWorld).world.db.orders = oneUserWorld.db.orders := by
  decide

/-- One round of the loop of `createOrders` when there is no size variation:
it never completes, and ends in the division by zero once the order is
created. -/
theorem createOrder_sat_no_size_variations (env : Env) (i : Nat) (u : UserWithAddresses)
    (w1 : World) (ha : u.addresses ≠ []) :
    (createOrder env [] i u w1).sat (fun _ _ => False)
      (fun e w2 => env.storageErr w1.trace.length = false →
        e = .panic "integer divide by zero"
        ∧ w2.db.orderItems = w1.db.orderItems
        ∧ ∃ o, w2.db.orders = w1.db.orders ++ [o] ∧ o.id = nextID (w1.db.orders.map Order.id)) := by
  obtain ⟨user, addrs⟩ := u
  cases addrs with
  | nil => exact absurd rfl ha
  | cons address rest =>
    simp only [createOrder, List.length_nil, dite_true, sat_bind, sat_orFatal_storage,
      dbCreateOrder, sat_goPanic]
    split_ifs with h1
    · intro hok; simp [hok] at h1
    · intro _
      simp [World.logCall, World.logInsert]

/-- The run of `createOrders` on a store with a first user who has an address
and no size variation, in any environment: it never completes, and what it
does when the storage fails no call. -/
theorem createOrders_sat_no_size_variations (env : Env) (w : World) (u : User) (rest : List User)
    (hu : w.db.users = u :: rest) (ha : ∃ a ∈ w.db.addresses, a.userID = u.id)
    (hsv : w.db.sizeVariations = []) :
    (createOrders env w).sat (fun _ _ => False)
      (fun e w2 => (∀ n, env.storageErr n = false) →
        e = .panic "integer divide by zero"
        ∧ w2.db.orderItems = w.db.orderItems
        ∧ ∃ o, w2.db.orders = w.db.orders ++ [o] ∧ o.id = nextID (w.db.orders.map Order.id)) := by
  obtain ⟨a, ha, hau⟩ := ha
  have hf : w.db.addresses.filter (fun a => a.userID = u.id) ≠ [] := by
    intro hnil
    have hm : a ∈ w.db.addresses.filter fun a => a.userID = u.id := by
      simp [List.mem_filter, ha, hau]
    rw [hnil] at hm
    exact absurd hm (List.not_mem_nil _)
  simp only [createOrders, sat_bind, sat_orFatal_storage, dbFindUsersWithAddresses,
    dbFindSizeVariations, hu, hsv, logCall_db]
  split_ifs with h1 h2
  · intro hok; simp [hok] at h1
  · intro hok; simp [hok] at h2
  · simp only [List.take_succ_cons, List.map_cons, forEachIdx, sat_bind]
    refine sat_mono (createOrder_sat_no_size_variations env 0 ⟨u, _⟩ _ hf) ?_ ?_
    · intro _ _ h; exact h.elim
    · intro e w2 h hok
      simpa [World.logCall] using h (hok _)

/-- One round of the loop of `createOrders` never ends in a Go panic when
there is a size variation and the user has an address. -/
theorem createOrder_no_panic (env : Env) (svs : List SizeVariation) (i : Nat)
    (u : UserWithAddresses) (w1 : World) (ha : u.addresses ≠ []) (hsv : svs ≠ []) :
    (createOrder env svs i u w1).sat (fun _ _ => True) (fun e _ => ∃ msg, e = .fatal msg) := by
  obtain ⟨user, addrs⟩ := u
  cases addrs with
  | nil => exact absurd rfl ha
  | cons address rest =>
    have hlen : ¬ svs.length = 0 := fun h => hsv (List.length_eq_zero.mp h)
    simp only [createOrder, hlen, dite_false, sat_bind, findProductByColorVariationID,
      sat_orFatal_storage, sat_orFatal_dbSingle, dbCreateOrder, dbFindColorVariation, dbFindProduct,
      dbCreateOrderItem, dbSaveOrder, sat_randIntn]
    simp

/-- C10, amended. From a store whose first user has an address and which has
no size variation, `createOrders` never completes normally. When every storage
call succeeds it inserts exactly one order and then ends in the division by
zero of `i % sizeVariationsCount`, with no order item inserted, so that the
order has none when the items already in the store referenced orders in the
store. Conversely, for a non-empty list of size variations the index
`i % count` is within bounds, and a round of the loop for a user with an
address never ends in a Go panic. -/
theorem createOrders_without_size_variations (env : Env) (w : World) (u : User)
    (rest : List User) (hu : w.db.users = u :: rest)
    (ha : ∃ a ∈ w.db.addresses, a.userID = u.id) (hsv : w.db.sizeVariations = []) :
    (createOrders env w).exit ≠ none
    ∧ ((∀ n, env.storageErr n = false) →
        (createOrders env w).exit = some (.panic "integer divide by zero")
        ∧ (createOrders env w).world.db.orderItems = w.db.orderItems
        ∧ ∃ o, (createOrders env w).world.db.orders = w.db.orders ++ [o]
          ∧ ((∀ it ∈ w.db.orderItems, it.orderID ∈ w.db.orders.map Order.id) →
              ∀ it ∈ (createOrders env w).world.db.orderItems, it.orderID ≠ o.id))
    ∧ (∀ (svs : List SizeVariation) (i : Nat), svs ≠ [] →
        i % svs.length < svs.length
        ∧ ∀ (env1 : Env) (x : UserWithAddresses) (w1 : World) (msg : String),
            x.addresses ≠ [] → (createOrder env1 svs i x w1).exit ≠ some (.panic msg)) := by
  have h := createOrders_sat_no_size_variations env w u rest hu ha hsv
  refine ⟨?_, ?_, ?_⟩
  · rcases sat_elim h with ⟨_, _, hf⟩ | ⟨e, he, _⟩
    · exact hf.elim
    · rw [he]; simp
  · intro hok
    rcases sat_elim h with ⟨_, _, hf⟩ | ⟨e, he, hp⟩
    · exact hf.elim
    · obtain ⟨rfl, hi, o, ho, hid⟩ := hp hok
      refine ⟨he, hi, o, ho, ?_⟩
      intro hint it hit
      rw [hi] at hit
      have := lt_nextID _ _ (hint it hit)
      omega
  · intro svs i hne
    have hpos : 0 < svs.length := List.length_pos.mpr hne
    refine ⟨Nat.mod_lt _ hpos, ?_⟩
    intro env1 x w1 msg hx
    rcases sat_elim (createOrder_no_panic env1 svs i x w1 hx hne) with ⟨hex, _⟩ | ⟨e, he, m, hm⟩
    · rw [hex]; simp
    · rw [he, hm]; simp

/-- C10, witness: one user with an address and no size variation, in an
environment that fails nothing. -/
theorem createOrders_without_size_variations_witness :
    oneUserWorld.db.sizeVariations = []
    ∧ (createOrders quietEnv oneUserWorld).exit = some (.panic "integer divide by zero")
    ∧ (createOrders quietEnv oneUserWorld).world.db.orderItems = oneUserWorld.db.orderItems :=
  ⟨rfl,
    ((createOrders_without_size_variations quietEnv oneUserWorld
      { id := 1, email := "ann@example.com", name := "Ann", gender := "Female", createdAt := 0 }
      [] rfl ⟨_, List.mem_singleton.mpr rfl, rfl⟩ rfl).2.1 (fun _ => rfl)).1,
    ((createOrders_without_size_variations quietEnv oneUserWorld
      { id := 1, email := "ann@example.com", name := "Ann", gender := "Female", createdAt := 0 }
      [] rfl ⟨_, List.mem_singleton.mpr rfl, rfl⟩ rfl).2.1 (fun _ => rfl)).2.1⟩

/-! ## Catalog -/

theorem CatalogGrown.refl (w : World) : CatalogGrown w w [] [] [] 0 0 0 0 := by
  simp [CatalogGrown]

theorem CatalogGrown.append {w w1 w2 : World} {c1 c2 k1 k2 s1 s2 : List String}
    {p1 p2 v1 v2 i1 i2 z1 z2 : Nat}
    (h : CatalogGrown w w1 c1 k1 s1 p1 v1 i1 z1) (g : CatalogGrown w1 w2 c2 k2 s2 p2 v2 i2 z2) :
    CatalogGrown w w2 (c1 ++ c2) (k1 ++ k2) (s1 ++ s2) (p1 + p2) (v1 + v2) (i1 + i2) (z1 + z2) := by
  obtain ⟨⟨a1, ha1, hb1⟩, ⟨a2, ha2, hb2⟩, ⟨a3, ha3, hb3⟩, ⟨a4, ha4, hb4⟩, ⟨a5, ha5, hb5⟩,
    ⟨a6, ha6, hb6⟩, ⟨a7, ha7, hb7, hc7⟩⟩ := h
  obtain ⟨⟨e1, he1, hf1⟩, ⟨e2, he2, hf2⟩, ⟨e3, he3, hf3⟩, ⟨e4, he4, hf4⟩, ⟨e5, he5, hf5⟩,
    ⟨e6, he6, hf6⟩, ⟨e7, he7, hf7, hg7⟩⟩ := g
  refine ⟨⟨a1 ++ e1, by rw [he1, ha1, List.append_assoc], by simp [hb1, hf1]⟩,
    ⟨a2 ++ e2, by rw [he2, ha2, List.append_assoc], by simp [hb2, hf2]⟩,
    ⟨a3 ++ e3, by rw [he3, ha3, List.append_assoc], by simp [hb3, hf3]⟩,
    ⟨a4 ++ e4, by rw [he4, ha4, List.append_assoc], by simp [hb4, hf4]⟩,
    ⟨a5 ++ e5, by rw [he5, ha5, List.append_assoc], by simp [hb5, hf5]⟩,
    ⟨a6 ++ e6, by rw [he6, ha6, List.append_assoc], by simp [hb6, hf6]⟩,
    ⟨a7 ++ e7, by rw [he7, ha7, List.append_assoc], by simp [hb7, hf7], ?_⟩⟩
  intro sv hsv
  rcases List.mem_append.mp hsv with h | h
  · exact hc7 sv h
  · exact hg7 sv h

theorem CatalogGrown.lookup_eq {w w2 : World} {p v i z : Nat}
    (h : CatalogGrown w w2 [] [] [] p v i z) :
    w2.db.categories = w.db.categories ∧ w2.db.colors = w.db.colors ∧ w2.db.sizes = w.db.sizes := by
  obtain ⟨⟨a1, ha1, hb1⟩, ⟨a2, ha2, hb2⟩, ⟨a3, ha3, hb3⟩, _⟩ := h
  simp only [List.map_eq_nil_iff] at hb1 hb2 hb3
  subst hb1 hb2 hb3
  simp only [List.append_nil] at ha1 ha2 ha3
  exact ⟨ha1, ha2, ha3⟩

theorem find?_ne_none_of_name {α : Type} (rows : List α) (p : α → Bool)
    (h : ∃ r ∈ rows, p r = true) : rows.find? p ≠ none := by
  intro hn
  rw [List.find?_eq_none] at hn
  obtain ⟨r, hr, hp⟩ := h
  exact hn r hr hp

/-- One round of the size loop of `createProducts`, when the storage fails no
call and the size name resolves. -/
theorem createSizeVariation_ok (env : Env) (hok : ∀ n, env.storageErr n = false)
    (cv : ColorVariation) (sv : SeedSizeVariation) (w1 : World)
    (hs : ∃ s ∈ w1.db.sizes, s.name = sv.sizeName) :
    (createSizeVariation env cv sv w1).sat
      (fun _ w2 => CatalogGrown w1 w2 [] [] [] 0 0 0 1) (fun _ _ => False) := by
  have hne : w1.db.sizes.find? (fun s => decide (s.name = sv.sizeName)) ≠ none :=
    find?_ne_none_of_name _ _ (by simpa using hs)
  simp only [createSizeVariation, findSizeByName, dbFirstSizeByName, dbCreateSizeVariation,
    sat_bind, sat_orFatal_storage, sat_orFatal_dbSingle, sat_pure]
  simp [hok, hne, CatalogGrown, World.logCall, World.logInsert]

/-- One round of the image loop of `createProducts`, when the storage fails no
call: an image row is inserted whether or not the file could be fetched. -/
theorem createImage_ok (env : Env) (hok : ∀ n, env.storageErr n = false)
    (cv : ColorVariation) (img : SeedImage) (w1 : World) :
    (createImage env cv img w1).sat
      (fun _ w2 => CatalogGrown w1 w2 [] [] [] 0 0 1 0) (fun _ _ => False) := by
  simp only [createImage, sat_bind, sat_effect]
  cases hres : (openFileByURL env img.url w1).1.err with
  | none =>
    simp only [sat_bind, sat_println, sat_pure, sat_orFatal_storage, dbCreateColorVariationImage]
    simp [hok, CatalogGrown, World.logCall, World.logInsert]
  | some e =>
    simp only [sat_bind, sat_println, sat_pure, sat_orFatal_storage, dbCreateColorVariationImage]
    simp [hok, CatalogGrown, World.logCall, World.logInsert]

/-- A loop whose every round adds to the catalog adds the total. -/
theorem forEach_grow {α : Type} (body : α → M Unit) (c k s : α → List String)
    (f1 f2 f3 f4 : α → Nat) (P : World → Prop) (xs : List α)
    (hkeep : ∀ x ∈ xs, ∀ w1 w2, P w1 →
      CatalogGrown w1 w2 (c x) (k x) (s x) (f1 x) (f2 x) (f3 x) (f4 x) → P w2)
    (hstep : ∀ x ∈ xs, ∀ w1, P w1 → (body x w1).sat
      (fun _ w2 => CatalogGrown w1 w2 (c x) (k x) (s x) (f1 x) (f2 x) (f3 x) (f4 x))
      (fun _ _ => False)) :
    ∀ w, P w → (forEach xs body w).sat
      (fun _ w2 => CatalogGrown w w2 (xs.flatMap c) (xs.flatMap k) (xs.flatMap s)
        (xs.map f1).sum (xs.map f2).sum (xs.map f3).sum (xs.map f4).sum)
      (fun _ _ => False) := by
  induction xs with
  | nil =>
    intro w _
    simpa [forEach] using CatalogGrown.refl w
  | cons x rest ih =>
    intro w hw
    unfold forEach
    rw [sat_bind]
    refine sat_mono (hstep x (List.mem_cons_self _ _) w hw) ?_ (fun _ _ h => h)
    intro _ w1 h1
    have hw1 : P w1 := hkeep x (List.mem_cons_self _ _) w w1 hw h1
    refine sat_mono (ih (fun y hy => hkeep y (List.mem_cons_of_mem _ hy))
      (fun y hy => hstep y (List.mem_cons_of_mem _ hy)) w1 hw1) ?_ (fun _ _ h => h)
    intro _ w2 h2
    simpa using h1.append h2

@[simp] theorem flatMap_nil_fun {α β : Type} (xs : List α) :
    (xs.flatMap fun _ => ([] : List β)) = [] := by
  induction xs with
  | nil => rfl
  | cons x rest ih => simp [ih]

@[simp] theorem flatMap_singleton_fun {α β : Type} (f : α → β) (xs : List α) :
    (xs.flatMap fun x => [f x]) = xs.map f := by
  induction xs with
  | nil => rfl
  | cons x rest ih => simp [ih]

/-- A single-row query finds a row when the storage fails no call and a row
matches. -/
theorem dbSingle_ok {α : Type} (msg : String) (env : Env) (hok : ∀ n, env.storageErr n = false)
    (op : Op) (t : TableName) (rows : World → List α) (p : α → Bool) (w : World)
    (h : ∃ r ∈ rows w, p r = true) :
    (orFatal msg (dbSingle env op t rows p) w).sat
      (fun r w2 => w2.db = w.db ∧ r ∈ rows w ∧ p r = true) (fun _ _ => False) := by
  rw [sat_orFatal_dbSingle]
  simp only [hok, Bool.false_eq_true, if_false, logCall_db, true_and]
  refine ⟨fun r hr => ⟨List.mem_of_find?_eq_some hr, List.find?_some hr⟩, ?_⟩
  intro hn
  exact find?_ne_none_of_name _ _ h hn

/-- The image loop of `createProducts` for one color variation. -/
theorem createImages_ok (env : Env) (hok : ∀ n, env.storageErr n = false)
    (cv : ColorVariation) (imgs : List SeedImage) (w : World) :
    (forEach imgs (createImage env cv) w).sat
      (fun _ w2 => CatalogGrown w w2 [] [] [] 0 0 imgs.length 0) (fun _ _ => False) := by
  have := forEach_grow (createImage env cv) (fun _ => []) (fun _ => []) (fun _ => [])
    (fun _ => 0) (fun _ => 0) (fun _ => 1) (fun _ => 0) (fun _ => True) imgs
    (fun _ _ _ _ _ _ => trivial) (fun x _ w1 _ => createImage_ok env hok cv x w1) w trivial
  simpa using this

/-- The size loop of `createProducts` for one color variation. -/
theorem createSizeVariations_ok (env : Env) (hok : ∀ n, env.storageErr n = false)
    (cv : ColorVariation) (svs : List SeedSizeVariation) (w : World)
    (hs : ∀ sv ∈ svs, ∃ s ∈ w.db.sizes, s.name = sv.sizeName) :
    (forEach svs (createSizeVariation env cv) w).sat
      (fun _ w2 => CatalogGrown w w2 [] [] [] 0 0 0 svs.length) (fun _ _ => False) := by
  have := forEach_grow (createSizeVariation env cv) (fun _ => []) (fun _ => []) (fun _ => [])
    (fun _ => 0) (fun _ => 0) (fun _ => 0) (fun _ => 1) (fun w1 => w1.db.sizes = w.db.sizes) svs
    (fun _ _ w1 w2 h1 h2 => by
      simp only at h1 h2 ⊢
      rw [h2.lookup_eq.2.2, h1])
    (fun x hx w1 h1 => createSizeVariation_ok env hok cv x w1 (by
      simp only at h1
      rw [h1]
      exact hs x hx)) w rfl
  simpa using this

/-- One round of the color loop of `createProducts`, when the storage fails no
call and the names resolve. -/
theorem createColorVariation_ok (env : Env) (hok : ∀ n, env.storageErr n = false)
    (p : SeedProduct) (product : Product) (cv : SeedColorVariation) (w1 : World)
    (hc : ∃ c ∈ w1.db.colors, c.name = cv.colorName)
    (hs : ∀ sv ∈ p.sizeVariations, ∃ s ∈ w1.db.sizes, s.name = sv.sizeName) :
    (createColorVariation env p product cv w1).sat
      (fun _ w2 => CatalogGrown w1 w2 [] [] [] 0 1 cv.images.length p.sizeVariations.length)
      (fun _ _ => False) := by
  unfold createColorVariation
  rw [sat_bind]
  refine sat_mono (dbSingle_ok _ env hok _ _ _ _ w1 (by simpa using hc)) ?_ (fun _ _ h => h)
  intro color w2 ⟨hdb, _, _⟩
  simp only [sat_bind, sat_orFatal_storage, dbCreateColorVariation, hok, Bool.false_eq_true,
    if_false]
  generalize hw3 : World.logCall _ _ _ _ _ = w3
  have hg : CatalogGrown w1 w3 [] [] [] 0 1 0 0 := by
    subst hw3
    simp [CatalogGrown, World.logCall, World.logInsert, hdb]
  refine sat_mono (createImages_ok env hok _ cv.images w3) ?_ (fun _ _ h => h)
  intro _ w4 h4
  refine sat_mono (createSizeVariations_ok env hok _ p.sizeVariations w4 ?_) ?_ (fun _ _ h => h)
  · rw [(hg.append h4).lookup_eq.2.2]
    exact hs
  · intro _ w5 h5
    simpa using (hg.append h4).append h5

/-- The color loop of `createProducts` for one product. -/
theorem createColorVariations_ok (env : Env) (hok : ∀ n, env.storageErr n = false)
    (p : SeedProduct) (product : Product) (w : World)
    (hc : ∀ cv ∈ p.colorVariations, ∃ c ∈ w.db.colors, c.name = cv.colorName)
    (hs : ∀ sv ∈ p.sizeVariations, ∃ s ∈ w.db.sizes, s.name = sv.sizeName) :
    (forEach p.colorVariations (createColorVariation env p product) w).sat
      (fun _ w2 => CatalogGrown w w2 [] [] [] 0 p.colorVariations.length p.imageCount p.pairCount)
      (fun _ _ => False) := by
  have := forEach_grow (createColorVariation env p product) (fun _ => []) (fun _ => [])
    (fun _ => []) (fun _ => 0) (fun _ => 1) (fun cv => cv.images.length)
    (fun _ => p.sizeVariations.length)
    (fun w1 => w1.db.colors = w.db.colors ∧ w1.db.sizes = w.db.sizes) p.colorVariations
    (fun _ _ w1 w2 h1 h2 => by
      simp only at h1 h2 ⊢
      rw [h2.lookup_eq.2.1, h2.lookup_eq.2.2]
      exact h1)
    (fun x hx w1 h1 => createColorVariation_ok env hok p product x w1
      (by simp only at h1; rw [h1.1]; exact hc x hx)
      (by simp only at h1; rw [h1.2]; exact hs)) w ⟨rfl, rfl⟩
  simpa [SeedProduct.imageCount, SeedProduct.pairCount] using this

/-- One round of the loop of `createProducts`, when the storage fails no call
and the names resolve. -/
theorem createProduct_ok (env : Env) (hok : ∀ n, env.storageErr n = false)
    (p : SeedProduct) (w1 : World) (hn : NamesResolveIn w1.db p) :
    (createProduct env p w1).sat
      (fun _ w2 => CatalogGrown w1 w2 [] [] [] 1 p.colorVariations.length p.imageCount p.pairCount)
      (fun _ _ => False) := by
  obtain ⟨hcat, hcol, hsiz⟩ := hn
  unfold createProduct findCategoryByName dbFirstCategoryByName
  rw [sat_bind]
  refine sat_mono (dbSingle_ok _ env hok _ _ _ _ w1 (by simpa using hcat)) ?_ (fun _ _ h => h)
  intro category w2 ⟨hdb, _, _⟩
  simp only [sat_bind, sat_orFatal_storage, dbCreateProduct, hok, Bool.false_eq_true, if_false]
  generalize hw3 : World.logCall _ _ _ _ _ = w3
  have hg : CatalogGrown w1 w3 [] [] [] 1 0 0 0 := by
    subst hw3
    simp [CatalogGrown, World.logCall, World.logInsert, hdb]
  refine sat_mono (createColorVariations_ok env hok p _ w3 ?_ ?_) ?_ (fun _ _ h => h)
  · rw [hg.lookup_eq.2.1]
    exact hcol
  · rw [hg.lookup_eq.2.2]
    exact hsiz
  · intro _ w4 h4
    simpa using hg.append h4

/-- The function `createProducts`, when the storage fails no call and the
names resolve. -/
theorem createProducts_ok (env : Env) (hok : ∀ n, env.storageErr n = false)
    (seeds : SeedData) (w : World) (hn : ∀ p ∈ seeds.products, NamesResolveIn w.db p) :
    (createProducts env seeds w).sat
      (fun _ w2 => CatalogGrown w w2 [] [] [] seeds.products.length
        (seeds.products.map fun p => p.colorVariations.length).sum
        (seeds.products.map SeedProduct.imageCount).sum
        (seeds.products.map SeedProduct.pairCount).sum)
      (fun _ _ => False) := by
  have := forEach_grow (createProduct env) (fun _ => []) (fun _ => [])
    (fun _ => []) (fun _ => 1) (fun p => p.colorVariations.length) SeedProduct.imageCount
    SeedProduct.pairCount
    (fun w1 => w1.db.categories = w.db.categories ∧ w1.db.colors = w.db.colors
      ∧ w1.db.sizes = w.db.sizes) seeds.products
    (fun _ _ w1 w2 h1 h2 => by
      simp only at h1 h2 ⊢
      rw [h2.lookup_eq.1, h2.lookup_eq.2.1, h2.lookup_eq.2.2]
      exact h1)
    (fun x hx w1 h1 => createProduct_ok env hok x w1 (by
      simp only at h1
      unfold NamesResolveIn
      rw [h1.1, h1.2.1, h1.2.2]
      exact hn x hx)) w ⟨rfl, rfl, rfl⟩
  simpa [createProducts] using this

/-- The function `createCategories`, when the storage fails no call. -/
theorem createCategories_ok (env : Env) (hok : ∀ n, env.storageErr n = false)
    (seeds : SeedData) (w : World) :
    (createCategories env seeds w).sat
      (fun _ w2 => CatalogGrown w w2 (seeds.categories.map SeedCategory.name) [] [] 0 0 0 0)
      (fun _ _ => False) := by
  have := forEach_grow (fun c : SeedCategory => (do
      let category : Category := { id := 0, name := c.name }
      let _ ← orFatal "create category failure" (dbCreateCategory env category)
      pure () : M Unit)) (fun c => [c.name]) (fun _ => [])
    (fun _ => []) (fun _ => 0) (fun _ => 0) (fun _ => 0) (fun _ => 0) (fun _ => True)
    seeds.categories (fun _ _ _ _ _ _ => trivial)
    (fun x _ w1 _ => by
      simp only [sat_bind, sat_orFatal_storage, dbCreateCategory, sat_pure]
      simp [hok, CatalogGrown, World.logCall, World.logInsert]) w trivial
  simpa [createCategories] using this

/-- The function `createColors`, when the storage fails no call. -/
theorem createColors_ok (env : Env) (hok : ∀ n, env.storageErr n = false)
    (seeds : SeedData) (w : World) :
    (createColors env seeds w).sat
      (fun _ w2 => CatalogGrown w w2 [] (seeds.colors.map SeedColor.name) [] 0 0 0 0)
      (fun _ _ => False) := by
  have := forEach_grow (fun c : SeedColor => (do
      let color : Color := { id := 0, name := c.name, code := c.code }
      let _ ← orFatal "create color failure" (dbCreateColor env color)
      pure () : M Unit)) (fun _ => []) (fun c => [c.name])
    (fun _ => []) (fun _ => 0) (fun _ => 0) (fun _ => 0) (fun _ => 0) (fun _ => True)
    seeds.colors (fun _ _ _ _ _ _ => trivial)
    (fun x _ w1 _ => by
      simp only [sat_bind, sat_orFatal_storage, dbCreateColor, sat_pure]
      simp [hok, CatalogGrown, World.logCall, World.logInsert]) w trivial
  simpa [createColors] using this

/-- The function `createSizes`, when the storage fails no call. -/
theorem createSizes_ok (env : Env) (hok : ∀ n, env.storageErr n = false)
    (seeds : SeedData) (w : World) :
    (createSizes env seeds w).sat
      (fun _ w2 => CatalogGrown w w2 [] [] (seeds.sizes.map SeedSize.name) 0 0 0 0)
      (fun _ _ => False) := by
  have := forEach_grow (fun c : SeedSize => (do
      let size : Size := { id := 0, name := c.name, code := c.code }
      let _ ← orFatal "create size failure" (dbCreateSize env size)
      pure () : M Unit)) (fun _ => []) (fun _ => [])
    (fun c => [c.name]) (fun _ => 0) (fun _ => 0) (fun _ => 0) (fun _ => 0) (fun _ => True)
    seeds.sizes (fun _ _ _ _ _ _ => trivial)
    (fun x _ w1 _ => by
      simp only [sat_bind, sat_orFatal_storage, dbCreateSize, sat_pure]
      simp [hok, CatalogGrown, World.logCall, World.logInsert]) w trivial
  simpa [createSizes] using this

/-! ## Steps that leave the catalog alone -/

theorem SameCatalog.grown {w w2 : World} (h : SameCatalog w w2) :
    CatalogGrown w w2 [] [] [] 0 0 0 0 := by
  obtain ⟨h1, h2, h3, h4, h5, h6, h7⟩ := h
  simp [CatalogGrown, h1, h2, h3, h4, h5, h6, h7]

theorem SameCatalog.chain {w w1 w2 : World} (h : SameCatalog w w1) (g : SameCatalog w1 w2) :
    SameCatalog w w2 := by
  obtain ⟨h1, h2, h3, h4, h5, h6, h7⟩ := h
  obtain ⟨g1, g2, g3, g4, g5, g6, g7⟩ := g
  exact ⟨g1.trans h1, g2.trans h2, g3.trans h3, g4.trans h4, g5.trans h5, g6.trans h6,
    g7.trans h7⟩

/-- The function `createUsers` leaves the catalog alone, however it ends. -/
theorem createUsers_catalog (env : Env) (w : World) :
    (createUsers env w).sat (fun _ w2 => SameCatalog w w2) (fun _ w2 => SameCatalog w w2) := by
  have := sat_loopFrom (fun i => (do
      let email ← fake env
      let name ← fake env
      let gender := ["Female", "Male"].get ⟨i % 2, Nat.mod_lt i (by decide)⟩
      let user : User := { id := 0, email := email, name := name, gender := gender, createdAt := 0 }
      let user ← orFatal "create user failure" (dbCreateUser env user)
      let t ← randTime env
      let user := { user with createdAt := t }
      orFatal "Save user failure" (dbSaveUser env user) : M Unit))
    (fun _ w2 => SameCatalog w w2) (fun _ w2 => SameCatalog w w2) 500 0 w
    (by simp [SameCatalog]) (by
      intro j w1 _ _ h
      simp only [sat_bind, sat_orFatal_storage, dbCreateUser, dbSaveUser, randTime, sat_fake,
        sat_timeNow, sat_randIntn, sat_pure]
      unfold SameCatalog at h ⊢
      split_ifs <;> simp [World.logCall, World.logInsert, h])
  simpa [createUsers] using this

/-- The function `createAddresses` leaves the catalog alone, however it
ends. -/
theorem createAddresses_catalog (env : Env) (w : World) :
    (createAddresses env w).sat (fun _ w2 => SameCatalog w w2)
      (fun _ w2 => SameCatalog w w2) := by
  simp only [createAddresses, sat_bind, sat_orFatal_storage, dbFindUsers]
  split_ifs
  · simp [SameCatalog]
  · refine sat_forEach_inv _ (fun w2 => SameCatalog w w2) _ _ _ (by simp [SameCatalog]) ?_
    intro x _ w1 h
    simp only [sat_bind, sat_orFatal_storage, dbCreateAddress, sat_fake, sat_pure]
    unfold SameCatalog at h ⊢
    split_ifs <;> simp [World.logCall, World.logInsert, h]

/-- The function `createStores` leaves the catalog alone, however it ends. -/
theorem createStores_catalog (env : Env) (seeds : SeedData) (w : World) :
    (createStores env seeds w).sat (fun _ w2 => SameCatalog w w2)
      (fun _ w2 => SameCatalog w w2) := by
  unfold createStores
  refine sat_forEach_inv _ (fun w2 => SameCatalog w w2) _ _ _ (by simp [SameCatalog]) ?_
  intro x _ w1 h
  simp only [sat_bind, sat_orFatal_storage, dbCreateStore, sat_pure]
  unfold SameCatalog at h ⊢
  split_ifs <;> simp [World.logCall, World.logInsert, h]

/-- One round of the loop of `createOrders` leaves the catalog alone, however
it ends. -/
theorem createOrder_catalog (env : Env) (svs : List SizeVariation) (i : Nat)
    (u : UserWithAddresses) (w w1 : World) (h : SameCatalog w w1) :
    (createOrder env svs i u w1).sat (fun _ w2 => SameCatalog w w2)
      (fun _ w2 => SameCatalog w w2) := by
  obtain ⟨user, addrs⟩ := u
  unfold SameCatalog at h ⊢
  cases addrs with
  | nil => simpa [createOrder] using h
  | cons address rest =>
    by_cases hsv : svs.length = 0
    · simp only [createOrder, hsv, dite_true, sat_bind, sat_orFatal_storage, dbCreateOrder,
        sat_goPanic]
      split_ifs <;> simp [World.logCall, World.logInsert, h]
    · simp only [createOrder, hsv, dite_false, sat_bind, findProductByColorVariationID,
        sat_orFatal_storage, sat_orFatal_dbSingle, dbCreateOrder, dbFindColorVariation, dbFindProduct,
        dbCreateOrderItem, dbSaveOrder, sat_randIntn]
      simp [World.logCall, World.logInsert, h]

/-- The function `createOrders` leaves the catalog alone, however it ends. -/
theorem createOrders_catalog (env : Env) (w : World) :
    (createOrders env w).sat (fun _ w2 => SameCatalog w w2) (fun _ w2 => SameCatalog w w2) := by
  simp only [createOrders, sat_bind, sat_orFatal_storage, dbFindUsersWithAddresses,
    dbFindSizeVariations]
  split_ifs
  · simp [SameCatalog]
  · simp [SameCatalog]
  · have := sat_forEachIdx (createOrder env w.db.sizeVariations)
      (fun _ w2 => SameCatalog w w2) (fun _ w2 => SameCatalog w w2)
      ((w.db.users.take 480).map fun u =>
        { user := u, addresses := w.db.addresses.filter fun a => a.userID = u.id })
      0 ((w.logCall .find .users false false).logCall .find .sizeVariations false false)
      (by simp [SameCatalog])
      (fun j x w1 _ h => createOrder_catalog env _ _ x w w1 h)
    simpa using this

/-- The catalog part of `createRecords`, when the storage fails no call and
the names resolve, followed by the rest of the run. -/
theorem catalog_then (env : Env) (hok : ∀ n, env.storageErr n = false) (seeds : SeedData)
    (w : World)
    (hres : ∀ p ∈ seeds.products,
      p.categoryName ∈ w.db.categories.map Category.name ++ seeds.categories.map SeedCategory.name
      ∧ (∀ cv ∈ p.colorVariations,
          cv.colorName ∈ w.db.colors.map Color.name ++ seeds.colors.map SeedColor.name)
      ∧ (∀ sv ∈ p.sizeVariations,
          sv.sizeName ∈ w.db.sizes.map Size.name ++ seeds.sizes.map SeedSize.name))
    (rest : M Unit) (Q : Unit → World → Prop) (A : Exit → World → Prop)
    (hrest : ∀ w2, CatalogGrown w w2 (seeds.categories.map SeedCategory.name)
        (seeds.colors.map SeedColor.name) (seeds.sizes.map SeedSize.name) seeds.products.length
        (seeds.products.map fun p => p.colorVariations.length).sum
        (seeds.products.map SeedProduct.imageCount).sum
        (seeds.products.map SeedProduct.pairCount).sum → (rest w2).sat Q A) :
    ((do
      createCategories env seeds
      println "--> Created categories."
      createColors env seeds
      println "--> Created colors."
      createSizes env seeds
      println "--> Created sizes."
      createProducts env seeds
      rest : M Unit) w).sat Q A := by
  rw [sat_bind]
  refine sat_mono (createCategories_ok env hok seeds w) ?_ (fun _ _ h => h.elim)
  intro _ w1 h1
  simp only [sat_bind, sat_println]
  generalize hw1 : ({ w1 with stdout := _ } : World) = w1a
  have h1a : CatalogGrown w w1a (seeds.categories.map SeedCategory.name) [] [] 0 0 0 0 := by
    subst hw1; exact h1
  refine sat_mono (createColors_ok env hok seeds w1a) ?_ (fun _ _ h => h.elim)
  intro _ w2 h2
  generalize hw2 : ({ w2 with stdout := _ } : World) = w2a
  have h2a : CatalogGrown w1a w2a [] (seeds.colors.map SeedColor.name) [] 0 0 0 0 := by
    subst hw2; exact h2
  refine sat_mono (createSizes_ok env hok seeds w2a) ?_ (fun _ _ h => h.elim)
  intro _ w3 h3
  generalize hw3 : ({ w3 with stdout := _ } : World) = w3a
  have h3a : CatalogGrown w2a w3a [] [] (seeds.sizes.map SeedSize.name) 0 0 0 0 := by
    subst hw3; exact h3
  have hall : CatalogGrown w w3a (seeds.categories.map SeedCategory.name)
      (seeds.colors.map SeedColor.name) (seeds.sizes.map SeedSize.name) 0 0 0 0 := by
    simpa using (h1a.append h2a).append h3a
  refine sat_mono (createProducts_ok env hok seeds w3a ?_) ?_ (fun _ _ h => h.elim)
  · intro p hp
    obtain ⟨⟨cs, hcs, hcn⟩, ⟨ks, hks, hkn⟩, ⟨ss, hss, hsn⟩, _⟩ := hall
    obtain ⟨r1, r2, r3⟩ := hres p hp
    have key : ∀ {α : Type} (rows : List α) (f : α → String) (n : String),
        n ∈ rows.map f → ∃ r ∈ rows, f r = n := by
      intro α rows f n hm
      simpa [List.mem_map] using hm
    refine ⟨key _ _ _ ?_, fun cv hcv => key _ _ _ ?_, fun sv hsv => key _ _ _ ?_⟩
    · rw [hcs, List.map_append, hcn]; exact r1
    · rw [hks, List.map_append, hkn]; exact r2 cv hcv
    · rw [hss, List.map_append, hsn]; exact r3 sv hsv
  · intro _ w4 h4
    exact hrest w4 (by simpa using hall.append h4)

/-- The function `createAddresses` completes when the storage fails no
call. -/
theorem createAddresses_ok (env : Env) (hok : ∀ n, env.storageErr n = false) (w : World) :
    (createAddresses env w).sat (fun _ _ => True) (fun _ _ => False) := by
  simp only [createAddresses, sat_bind, sat_orFatal_storage, dbFindUsers, hok,
    Bool.false_eq_true, if_false]
  refine sat_forEach_inv _ (fun _ => True) _ _ _ trivial ?_
  intro x _ w1 _
  simp only [sat_bind, sat_orFatal_storage, dbCreateAddress, sat_fake, sat_pure, hok,
    Bool.false_eq_true, if_false]

/-- The function `createStores` completes when the storage fails no call. -/
theorem createStores_ok (env : Env) (hok : ∀ n, env.storageErr n = false) (seeds : SeedData)
    (w : World) : (createStores env seeds w).sat (fun _ _ => True) (fun _ _ => False) := by
  unfold createStores
  refine sat_forEach_inv _ (fun _ => True) _ _ _ trivial ?_
  intro x _ w1 _
  simp only [sat_bind, sat_orFatal_storage, dbCreateStore, sat_pure, hok,
    Bool.false_eq_true, if_false]

/-- The catalog tables after `createRecords`, when the storage fails no call
and the names resolve. -/
theorem createRecords_catalog (env : Env) (hok : ∀ n, env.storageErr n = false)
    (seeds : SeedData) (w : World)
    (hres : ∀ p ∈ seeds.products,
      p.categoryName ∈ w.db.categories.map Category.name ++ seeds.categories.map SeedCategory.name
      ∧ (∀ cv ∈ p.colorVariations,
          cv.colorName ∈ w.db.colors.map Color.name ++ seeds.colors.map SeedColor.name)
      ∧ (∀ sv ∈ p.sizeVariations,
          sv.sizeName ∈ w.db.sizes.map Size.name ++ seeds.sizes.map SeedSize.name)) :
    CatalogGrown w (createRecords env seeds w).world (seeds.categories.map SeedCategory.name)
      (seeds.colors.map SeedColor.name) (seeds.sizes.map SeedSize.name) seeds.products.length
      (seeds.products.map fun p => p.colorVariations.length).sum
      (seeds.products.map SeedProduct.imageCount).sum
      (seeds.products.map SeedProduct.pairCount).sum := by
  refine sat_world (fun w2 => CatalogGrown w w2 (seeds.categories.map SeedCategory.name)
      (seeds.colors.map SeedColor.name) (seeds.sizes.map SeedSize.name) seeds.products.length
      (seeds.products.map fun p => p.colorVariations.length).sum
      (seeds.products.map SeedProduct.imageCount).sum
      (seeds.products.map SeedProduct.pairCount).sum) ?_
  unfold createRecords
  rw [sat_bind, sat_println, sat_bind]
  generalize hw0 : ({ w with stdout := _ } : World) = w0
  have h0 : SameCatalog w w0 := by subst hw0; simp [SameCatalog]
  refine sat_mono (sat_and (createUsers_run env hok w0) (createUsers_catalog env w0)) ?_
    (fun _ _ h => h.1.elim)
  intro _ w1 ⟨_, h1⟩
  rw [sat_bind, sat_println, sat_bind]
  generalize hw1 : ({ w1 with stdout := _ } : World) = w1a
  have h1a : SameCatalog w w1a := by
    subst hw1; exact h0.chain h1
  refine sat_mono (sat_and (createAddresses_ok env hok w1a) (createAddresses_catalog env w1a)) ?_
    (fun _ _ h => h.1.elim)
  intro _ w2 ⟨_, h2⟩
  rw [sat_bind, sat_println]
  generalize hw2 : ({ w2 with stdout := _ } : World) = w2a
  have h2a : SameCatalog w w2a := by
    subst hw2; exact h1a.chain h2
  obtain ⟨e1, e2, e3, e4, e5, e6, e7⟩ := h2a
  refine catalog_then env hok seeds w2a (by rw [e1, e2, e3]; exact hres) _ _ _ ?_
  intro w3 h3
  have h3w : CatalogGrown w w3 (seeds.categories.map SeedCategory.name)
      (seeds.colors.map SeedColor.name) (seeds.sizes.map SeedSize.name) seeds.products.length
      (seeds.products.map fun p => p.colorVariations.length).sum
      (seeds.products.map SeedProduct.imageCount).sum
      (seeds.products.map SeedProduct.pairCount).sum := by
    unfold CatalogGrown at h3 ⊢
    rw [e1, e2, e3, e4, e5, e6, e7] at h3
    exact h3
  have keep : ∀ {wa wb : World}, CatalogGrown w wa (seeds.categories.map SeedCategory.name)
      (seeds.colors.map SeedColor.name) (seeds.sizes.map SeedSize.name) seeds.products.length
      (seeds.products.map fun p => p.colorVariations.length).sum
      (seeds.products.map SeedProduct.imageCount).sum
      (seeds.products.map SeedProduct.pairCount).sum → SameCatalog wa wb →
      CatalogGrown w wb (seeds.categories.map SeedCategory.name)
      (seeds.colors.map SeedColor.name) (seeds.sizes.map SeedSize.name) seeds.products.length
      (seeds.products.map fun p => p.colorVariations.length).sum
      (seeds.products.map SeedProduct.imageCount).sum
      (seeds.products.map SeedProduct.pairCount).sum := by
    intro wa wb ha hb
    simpa using ha.append hb.grown
  rw [sat_bind, sat_println, sat_bind]
  generalize hw3 : ({ w3 with stdout := _ } : World) = w3a
  have h3a : SameCatalog w3 w3a := by subst hw3; simp [SameCatalog]
  refine sat_mono (sat_and (createStores_ok env hok seeds w3a) (createStores_catalog env seeds w3a))
    ?_ (fun _ _ h => h.1.elim)
  intro _ w4 ⟨_, h4⟩
  rw [sat_bind, sat_println, sat_bind]
  generalize hw4 : ({ w4 with stdout := _ } : World) = w4a
  have h4a : SameCatalog w3 w4a := by
    subst hw4; exact h3a.chain h4
  refine sat_mono (createOrders_catalog env w4a) ?_ ?_
  · intro _ w5 h5
    rw [sat_bind, sat_println, sat_println]
    exact keep h3w ((h4a.chain h5).chain (by simp [SameCatalog]))
  · intro _ w5 h5
    exact keep h3w (h4a.chain h5)

/-- C4. When the names of the fixture resolve (against the rows in the store
and the fixture's own categories, colors and sizes) and every storage call
succeeds, `createRecords` appends to the catalog tables exactly: one category,
color and size per fixture entry, with the entry's name; one product per
fixture product; one color variation per color-variation entry; one image row
per image URL; one size variation per pair of a color-variation entry and a
size-variation entry of the same product, each with available quantity 20. -/
theorem createRecords_catalog_rows (env : Env) (seeds : SeedData) (w : World)
    (hok : ∀ n, env.storageErr n = false)
    (hres : ∀ p ∈ seeds.products,
      p.categoryName ∈ w.db.categories.map Category.name ++ seeds.categories.map SeedCategory.name
      ∧ (∀ cv ∈ p.colorVariations,
          cv.colorName ∈ w.db.colors.map Color.name ++ seeds.colors.map SeedColor.name)
      ∧ (∀ sv ∈ p.sizeVariations,
          sv.sizeName ∈ w.db.sizes.map Size.name ++ seeds.sizes.map SeedSize.name)) :
    (∃ rows, (createRecords env seeds w).world.db.categories = w.db.categories ++ rows
      ∧ rows.length = seeds.categories.length
      ∧ rows.map Category.name = seeds.categories.map SeedCategory.name)
    ∧ (∃ rows, (createRecords env seeds w).world.db.colors = w.db.colors ++ rows
      ∧ rows.length = seeds.colors.length
      ∧ rows.map Color.name = seeds.colors.map SeedColor.name)
    ∧ (∃ rows, (createRecords env seeds w).world.db.sizes = w.db.sizes ++ rows
      ∧ rows.length = seeds.sizes.length
      ∧ rows.map Size.name = seeds.sizes.map SeedSize.name)
    ∧ (∃ rows, (createRecords env seeds w).world.db.products = w.db.products ++ rows
      ∧ rows.length = seeds.products.length)
    ∧ (∃ rows, (createRecords env seeds w).world.db.colorVariations = w.db.colorVariations ++ rows
      ∧ rows.length = (seeds.products.map fun p => p.colorVariations.length).sum)
    ∧ (∃ rows, (createRecords env seeds w).world.db.colorVariationImages
        = w.db.colorVariationImages ++ rows
      ∧ rows.length = (seeds.products.map fun p =>
          (p.colorVariations.map fun cv => cv.images.length).sum).sum)
    ∧ (∃ rows, (createRecords env seeds w).world.db.sizeVariations = w.db.sizeVariations ++ rows
      ∧ rows.length = (seeds.products.map fun p =>
          p.colorVariations.length * p.sizeVariations.length).sum
      ∧ ∀ sv ∈ rows, sv.availableQuantity = 20) := by
  obtain ⟨⟨r1, h1, n1⟩, ⟨r2, h2, n2⟩, ⟨r3, h3, n3⟩, h4, h5, h6, h7⟩ :=
    createRecords_catalog env hok seeds w hres
  refine ⟨⟨r1, h1, ?_, n1⟩, ⟨r2, h2, ?_, n2⟩, ⟨r3, h3, ?_, n3⟩, h4, h5, h6, h7⟩
  · simpa using congrArg List.length n1
  · simpa using congrArg List.length n2
  · simpa using congrArg List.length n3

/-- C4, witness: the end-to-end scenario. From empty tables, the fixture with
one category "Shirts", one color, one size and one product without images
gives one category, color, size, product, color variation and size variation
(quantity 20) and no image. -/
theorem createRecords_catalog_rows_witness :
    (createRecords quietEnv shirtSeeds World.empty).world.db.categories.length = 1
    ∧ (createRecords quietEnv shirtSeeds World.empty).world.db.colors.length = 1
    ∧ (createRecords quietEnv shirtSeeds World.empty).world.db.sizes.length = 1
    ∧ (createRecords quietEnv shirtSeeds World.empty).world.db.products.length = 1
    ∧ (createRecords quietEnv shirtSeeds World.empty).world.db.colorVariations.length = 1
    ∧ (createRecords quietEnv shirtSeeds World.empty).world.db.sizeVariations.length = 1
    ∧ (∀ sv ∈ (createRecords quietEnv shirtSeeds World.empty).world.db.sizeVariations,
        sv.availableQuantity = 20)
    ∧ (createRecords quietEnv shirtSeeds World.empty).world.db.colorVariationImages.length = 0 := by
  obtain ⟨⟨r1, h1, n1, _⟩, ⟨r2, h2, n2, _⟩, ⟨r3, h3, n3, _⟩, ⟨r4, h4, n4⟩, ⟨r5, h5, n5⟩,
      ⟨r6, h6, n6⟩, ⟨r7, h7, n7, q7⟩⟩ :=
    createRecords_catalog_rows quietEnv shirtSeeds World.empty (fun _ => rfl)
      (by simp [shirtSeeds])
  refine ⟨?_, ?_, ?_, ?_, ?_, ?_, ?_, ?_⟩
  · rw [h1, List.length_append, n1]; rfl
  · rw [h2, List.length_append, n2]; rfl
  · rw [h3, List.length_append, n3]; rfl
  · rw [h4, List.length_append, n4]; rfl
  · rw [h5, List.length_append, n5]; rfl
  · rw [h7, List.length_append, n7]; rfl
  · intro sv hsv
    rw [h7] at hsv
    rcases List.mem_append.mp hsv with h | h
    · exact absurd h (List.not_mem_nil _)
    · exact q7 sv h
  · rw [h6, List.length_append, n6]; rfl

/-! ## Foreign keys -/

theorem Sound.snoc {w1 w2 : World} (h : Sound w1) (x : Insert)
    (hj : w2.journal = w1.journal ++ [x]) (hx : x.refsPresent = true) : Sound w2 := by
  intro e he
  rw [hj] at he
  rcases List.mem_append.mp he with h1 | h1
  · exact h e h1
  · rw [List.mem_singleton.mp h1]
    exact hx

theorem Sound.same {w1 w2 : World} (h : Sound w1) (hj : w2.journal = w1.journal) : Sound w2 := by
  intro e he
  rw [hj] at he
  exact h e he

theorem mem_ids_of_find? {α : Type} {rows : List α} {p : α → Bool} {r : α} (key : α → Nat)
    (h : rows.find? p = some r) : key r ∈ rows.map key :=
  List.mem_map_of_mem key (List.mem_of_find?_eq_some h)

/-- One round of the image loop, in any environment: the parents stay, the
color variations stay, and the journal stays sound when the color variation is
in the store. -/
theorem createImage_sound (env : Env) (cv : ColorVariation) (img : SeedImage) (w1 : World) :
    (createImage env cv img w1).sat
      (fun _ w2 => SameParents w1 w2 ∧ w2.db.colorVariations = w1.db.colorVariations
        ∧ (Sound w1 → cv.id ∈ w1.db.colorVariations.map ColorVariation.id → Sound w2))
      (fun _ w2 => SameParents w1 w2 ∧ w2.db.colorVariations = w1.db.colorVariations
        ∧ (Sound w1 → cv.id ∈ w1.db.colorVariations.map ColorVariation.id → Sound w2)) := by
  simp only [createImage, sat_bind, sat_effect]
  cases hres : (openFileByURL env img.url w1).1.err with
  | none =>
    simp only [sat_bind, sat_println, sat_pure, sat_orFatal_storage, dbCreateColorVariationImage]
    split_ifs
    · refine ⟨by simp [SameParents], by simp, fun hs _ => hs.same (by simp [World.logCall])⟩
    · refine ⟨by simp [SameParents, World.logInsert], by simp [World.logInsert], fun hs hcv =>
        hs.snoc _ (by simp [World.logCall, World.logInsert]; rfl) (by simpa using hcv)⟩
  | some e =>
    simp only [sat_bind, sat_println, sat_pure, sat_orFatal_storage, dbCreateColorVariationImage]
    split_ifs
    · refine ⟨by simp [SameParents], by simp, fun hs _ => hs.same (by simp [World.logCall])⟩
    · refine ⟨by simp [SameParents, World.logInsert], by simp [World.logInsert], fun hs hcv =>
        hs.snoc _ (by simp [World.logCall, World.logInsert]; rfl) (by simpa using hcv)⟩

/-- One round of the size loop, in any environment. -/
theorem createSizeVariation_sound (env : Env) (cv : ColorVariation) (sv : SeedSizeVariation)
    (w1 : World) :
    (createSizeVariation env cv sv w1).sat
      (fun _ w2 => SameParents w1 w2 ∧ w2.db.colorVariations = w1.db.colorVariations
        ∧ (Sound w1 → cv.id ∈ w1.db.colorVariations.map ColorVariation.id → Sound w2))
      (fun _ w2 => SameParents w1 w2 ∧ w2.db.colorVariations = w1.db.colorVariations
        ∧ (Sound w1 → cv.id ∈ w1.db.colorVariations.map ColorVariation.id → Sound w2)) := by
  simp only [createSizeVariation, findSizeByName, dbFirstSizeByName, dbCreateSizeVariation,
    sat_bind, sat_orFatal_storage, sat_orFatal_dbSingle, sat_pure]
  split_ifs
  · exact ⟨by simp [SameParents], by simp, fun hs _ => hs.same (by simp [World.logCall])⟩
  · exact ⟨fun size hsize =>
        ⟨by simp [SameParents], by simp, fun hs _ => hs.same (by simp [World.logCall])⟩,
      fun _ => ⟨by simp [SameParents], by simp, fun hs _ => hs.same (by simp [World.logCall])⟩⟩
  · refine ⟨fun size hsize => ?_,
      fun _ => ⟨by simp [SameParents], by simp, fun hs _ => hs.same (by simp [World.logCall])⟩⟩
    refine ⟨by simp [SameParents, World.logInsert], by simp [World.logInsert], fun hs hcv =>
      hs.snoc _ (by simp [World.logCall, World.logInsert]; rfl) ?_⟩
    have := mem_ids_of_find? Size.id hsize
    simp only [Bool.and_eq_true, decide_eq_true_eq]
    exact ⟨by simpa using hcv, by simpa using this⟩

/-- A loop over rounds that keep the parents and the color variations, and
keep the journal sound while the color variation is in the store. -/
theorem forEach_sound_under {α : Type} (body : α → M Unit) (cv : ColorVariation)
    (hbody : ∀ x w1, (body x w1).sat
      (fun _ w2 => SameParents w1 w2 ∧ w2.db.colorVariations = w1.db.colorVariations
        ∧ (Sound w1 → cv.id ∈ w1.db.colorVariations.map ColorVariation.id → Sound w2))
      (fun _ w2 => SameParents w1 w2 ∧ w2.db.colorVariations = w1.db.colorVariations
        ∧ (Sound w1 → cv.id ∈ w1.db.colorVariations.map ColorVariation.id → Sound w2)))
    (xs : List α) (w : World) :
    (forEach xs body w).sat
      (fun _ w2 => SameParents w w2 ∧ w2.db.colorVariations = w.db.colorVariations
        ∧ (Sound w → cv.id ∈ w.db.colorVariations.map ColorVariation.id → Sound w2))
      (fun _ w2 => SameParents w w2 ∧ w2.db.colorVariations = w.db.colorVariations
        ∧ (Sound w → cv.id ∈ w.db.colorVariations.map ColorVariation.id → Sound w2)) := by
  refine sat_forEach_inv body
    (fun w2 => SameParents w w2 ∧ w2.db.colorVariations = w.db.colorVariations
        ∧ (Sound w → cv.id ∈ w.db.colorVariations.map ColorVariation.id → Sound w2)) _ xs w
    ⟨⟨rfl, rfl, rfl, rfl⟩, rfl, fun h _ => h⟩ ?_
  intro x _ w1 ⟨⟨a1, a2, a3, a4⟩, hcv, hs⟩
  have step : ∀ w2, (SameParents w1 w2 ∧ w2.db.colorVariations = w1.db.colorVariations
        ∧ (Sound w1 → cv.id ∈ w1.db.colorVariations.map ColorVariation.id → Sound w2)) →
      (SameParents w w2 ∧ w2.db.colorVariations = w.db.colorVariations
        ∧ (Sound w → cv.id ∈ w.db.colorVariations.map ColorVariation.id → Sound w2)) := by
    intro w2 ⟨⟨b1, b2, b3, b4⟩, hcv2, hs2⟩
    refine ⟨⟨b1.trans a1, b2.trans a2, b3.trans a3, b4.trans a4⟩, hcv2.trans hcv, ?_⟩
    intro h0 hm
    exact hs2 (hs h0 hm) (by rw [hcv]; exact hm)
  exact sat_mono (hbody x w1) (fun _ w2 h => step w2 h) (fun _ w2 h => step w2 h)

/-- A single-row query, in any environment: it changes neither the tables nor
the journal, and what it returns is the first matching row. -/
theorem dbSingle_sat {α : Type} (msg : String) (env : Env) (op : Op) (t : TableName)
    (rows : World → List α) (p : α → Bool) (w : World) :
    (orFatal msg (dbSingle env op t rows p) w).sat
      (fun r w2 => w2.db = w.db ∧ w2.journal = w.journal ∧ (rows w).find? p = some r
        ∧ w2.trace.length = w.trace.length + 1)
      (fun e w2 => w2.db = w.db ∧ w2.journal = w.journal ∧ e = .fatal msg
        ∧ (env.storageErr w.trace.length = true ∨ (rows w).find? p = none)) := by
  rw [sat_orFatal_dbSingle]
  split_ifs with h
  · simp [h]
  · exact ⟨fun r hr => ⟨by simp, by simp, hr, by simp [World.logCall]⟩,
      fun hn => ⟨by simp, by simp, rfl, Or.inr hn⟩⟩

/-- The insertion of a color variation, in any environment. -/
theorem createColorVariationRow_sat (env : Env) (msg : String) (cv0 : ColorVariation)
    (w : World) :
    (orFatal msg (dbCreateColorVariation env cv0) w).sat
      (fun row w3 => SameParents w w3 ∧ row.id ∈ w3.db.colorVariations.map ColorVariation.id
        ∧ (Sound w → cv0.productID ∈ w.db.products.map Product.id →
            cv0.colorID ∈ w.db.colors.map Color.id → Sound w3))
      (fun _ w3 => SameParents w w3 ∧ (Sound w → Sound w3)) := by
  simp only [dbCreateColorVariation, sat_orFatal_storage]
  split_ifs
  · exact ⟨by simp [SameParents], fun hs => hs.same (by simp)⟩
  · refine ⟨by simp [SameParents, World.logInsert], by simp [World.logInsert], ?_⟩
    intro hs hp hc
    refine hs.snoc _ (by simp [World.logCall, World.logInsert]; rfl) ?_
    simp only [Bool.and_eq_true, decide_eq_true_eq]
    exact ⟨by simpa using hp, by simpa using hc⟩

/-- One round of the color loop, in any environment: the parents stay, and the
journal stays sound when the product is in the store. -/
theorem createColorVariation_sound (env : Env) (p : SeedProduct) (product : Product)
    (cv : SeedColorVariation) (w1 : World) :
    (createColorVariation env p product cv w1).sat
      (fun _ w2 => SameParents w1 w2
        ∧ (Sound w1 → product.id ∈ w1.db.products.map Product.id → Sound w2))
      (fun _ w2 => SameParents w1 w2
        ∧ (Sound w1 → product.id ∈ w1.db.products.map Product.id → Sound w2)) := by
  unfold createColorVariation findColorByName dbFirstColorByName
  rw [sat_bind]
  refine sat_mono (dbSingle_sat _ env _ _ _ _ w1) ?_ ?_
  · intro color w2 ⟨hdb, hj, hcolor, _⟩
    have hp2 : SameParents w1 w2 := by simp [SameParents, hdb]
    have hs2 : Sound w1 → Sound w2 := fun hs => hs.same hj
    rw [sat_bind]
    refine sat_mono (createColorVariationRow_sat env _ _ w2) ?_ ?_
    · intro row w3 ⟨hp3, hrow, hs3⟩
      have combine : ∀ wa wb, (SameParents w1 wa ∧ (Sound w1 →
            product.id ∈ w1.db.products.map Product.id → Sound wa)
            ∧ row.id ∈ wa.db.colorVariations.map ColorVariation.id) →
          (SameParents wa wb ∧ wb.db.colorVariations = wa.db.colorVariations
            ∧ (Sound wa → row.id ∈ wa.db.colorVariations.map ColorVariation.id → Sound wb)) →
          (SameParents w1 wb ∧ (Sound w1 →
            product.id ∈ w1.db.products.map Product.id → Sound wb)
            ∧ row.id ∈ wb.db.colorVariations.map ColorVariation.id) := by
        intro wa wb ⟨⟨a1, a2, a3, a4⟩, hsa, hma⟩ ⟨⟨b1, b2, b3, b4⟩, hcvb, hsb⟩
        exact ⟨⟨b1.trans a1, b2.trans a2, b3.trans a3, b4.trans a4⟩,
          fun h0 hm => hsb (hsa h0 hm) hma, by rw [hcvb]; exact hma⟩
      have h13 : SameParents w1 w3 ∧ (Sound w1 →
            product.id ∈ w1.db.products.map Product.id → Sound w3)
            ∧ row.id ∈ w3.db.colorVariations.map ColorVariation.id := by
        obtain ⟨b1, b2, b3, b4⟩ := hp3
        obtain ⟨a1, a2, a3, a4⟩ := hp2
        refine ⟨⟨b1.trans a1, b2.trans a2, b3.trans a3, b4.trans a4⟩, ?_, hrow⟩
        intro hs hprod
        refine hs3 (hs2 hs) (by rw [hdb]; exact hprod) ?_
        rw [hdb]
        exact mem_ids_of_find? Color.id hcolor
      rw [sat_bind]
      refine sat_mono (forEach_sound_under (createImage env row) row
        (createImage_sound env row) cv.images w3) ?_ ?_
      · intro _ w4 h4
        have h14 := combine w3 w4 h13 h4
        refine sat_mono (forEach_sound_under (createSizeVariation env row) row
          (createSizeVariation_sound env row) p.sizeVariations w4) ?_ ?_
        · intro _ w5 h5
          have := combine w4 w5 h14 h5
          exact ⟨this.1, this.2.1⟩
        · intro _ w5 h5
          have := combine w4 w5 h14 h5
          exact ⟨this.1, this.2.1⟩
      · intro _ w4 h4
        have := combine w3 w4 h13 h4
        exact ⟨this.1, this.2.1⟩
    · intro _ w3 ⟨hp3, hs3⟩
      obtain ⟨b1, b2, b3, b4⟩ := hp3
      obtain ⟨a1, a2, a3, a4⟩ := hp2
      exact ⟨⟨b1.trans a1, b2.trans a2, b3.trans a3, b4.trans a4⟩, fun hs _ => hs3 (hs2 hs)⟩
  · intro _ w2 ⟨hdb, hj, _⟩
    exact ⟨by simp [SameParents, hdb], fun hs _ => hs.same hj⟩

/-- The color loop of `createProducts` for one product, in any environment. -/
theorem createColorVariations_sound (env : Env) (p : SeedProduct) (product : Product)
    (w : World) :
    (forEach p.colorVariations (createColorVariation env p product) w).sat
      (fun _ w2 => SameParents w w2
        ∧ (Sound w → product.id ∈ w.db.products.map Product.id → Sound w2))
      (fun _ w2 => SameParents w w2
        ∧ (Sound w → product.id ∈ w.db.products.map Product.id → Sound w2)) := by
  refine sat_forEach_inv _
    (fun w2 => SameParents w w2
        ∧ (Sound w → product.id ∈ w.db.products.map Product.id → Sound w2)) _ _ w
    ⟨⟨rfl, rfl, rfl, rfl⟩, fun h _ => h⟩ ?_
  intro x _ w1 ⟨⟨a1, a2, a3, a4⟩, hs⟩
  have step : ∀ w2, (SameParents w1 w2
        ∧ (Sound w1 → product.id ∈ w1.db.products.map Product.id → Sound w2)) →
      (SameParents w w2
        ∧ (Sound w → product.id ∈ w.db.products.map Product.id → Sound w2)) := by
    intro w2 ⟨⟨b1, b2, b3, b4⟩, hs2⟩
    refine ⟨⟨b1.trans a1, b2.trans a2, b3.trans a3, b4.trans a4⟩, ?_⟩
    intro h0 hm
    exact hs2 (hs h0 hm) (by rw [a4]; exact hm)
  exact sat_mono (createColorVariation_sound env p product x w1) (fun _ w2 h => step w2 h)
    (fun _ w2 h => step w2 h)

/-- The insertion of a product, in any environment. -/
theorem createProductRow_sat (env : Env) (msg : String) (p0 : Product) (w : World) :
    (orFatal msg (dbCreateProduct env p0) w).sat
      (fun row w3 => w3.db.products = w.db.products ++ [row]
        ∧ row.categoryID = p0.categoryID ∧ row.name = p0.name
        ∧ row.id ∈ w3.db.products.map Product.id
        ∧ (Sound w → p0.categoryID ∈ w.db.categories.map Category.id → Sound w3))
      (fun e w3 => w3.db = w.db ∧ w3.journal = w.journal ∧ e = .fatal msg
        ∧ env.storageErr w.trace.length = true) := by
  simp only [dbCreateProduct, sat_orFatal_storage]
  split_ifs with h
  · simp [h]
  · refine ⟨by simp [World.logInsert], by simp, by simp, by simp [World.logInsert], ?_⟩
    intro hs hc
    refine hs.snoc _ (by simp [World.logCall, World.logInsert]; rfl) ?_
    simpa using hc

/-- One round of the loop of `createProducts`, in any environment. When it
completes, a product row referencing the category found was inserted; when it
ends early, either nothing at all was inserted (the lookup or the insertion of
the product failed) or that product row was. The journal stays sound. -/
theorem createProduct_sat (env : Env) (p : SeedProduct) (w1 : World) :
    (createProduct env p w1).sat
      (fun _ w2 => ProductInserted w1 w2 p ∧ (Sound w1 → Sound w2))
      (fun e w2 => (Sound w1 → Sound w2)
        ∧ ((w2.db = w1.db ∧ e = .fatal "can't find category"
              ∧ (env.storageErr w1.trace.length = true
                ∨ w1.db.categories.find? (fun c => c.name = p.categoryName) = none))
          ∨ (w2.db = w1.db ∧ e = .fatal "create product failure"
              ∧ env.storageErr (w1.trace.length + 1) = true
              ∧ w1.db.categories.find? (fun c => c.name = p.categoryName) ≠ none)
          ∨ ProductInserted w1 w2 p)) := by
  unfold createProduct findCategoryByName dbFirstCategoryByName
  rw [sat_bind]
  refine sat_mono (dbSingle_sat _ env _ _ _ _ w1) ?_ ?_
  · intro category w2 ⟨hdb, hj, hcat, htr⟩
    rw [sat_bind]
    refine sat_mono (createProductRow_sat env _ _ w2) ?_ ?_
    · intro row w3 ⟨hprod, hrc, hrn, hrow, hs3⟩
      have hins : ∀ w4, SameParents w3 w4 → ProductInserted w1 w4 p := by
        intro w4 ⟨_, _, _, h4⟩
        exact ⟨category, row, hcat, by rw [h4, hprod, hdb], hrc, hrn⟩
      have hsound : Sound w1 → Sound w3 := by
        intro hs
        refine hs3 (hs.same hj) ?_
        rw [hdb]
        exact mem_ids_of_find? Category.id hcat
      refine sat_mono (createColorVariations_sound env p row w3) ?_ ?_
      · intro _ w4 ⟨h4, hs4⟩
        exact ⟨hins w4 h4, fun hs => hs4 (hsound hs) hrow⟩
      · intro _ w4 ⟨h4, hs4⟩
        exact ⟨fun hs => hs4 (hsound hs) hrow, Or.inr (Or.inr (hins w4 h4))⟩
    · intro e w3 ⟨hdb3, hj3, he, herr⟩
      refine ⟨fun hs => (hs.same hj).same hj3, Or.inr (Or.inl ⟨hdb3.trans hdb, he, ?_⟩)⟩
      rw [← htr]
      exact ⟨herr, by rw [hcat]; simp⟩
  · intro e w2 ⟨hdb, hj, he, hwhy⟩
    exact ⟨fun hs => hs.same hj, Or.inl ⟨hdb, he, hwhy⟩⟩

theorem forEach_append {α : Type} (body : α → M Unit) (xs ys : List α) (w : World) :
    forEach (xs ++ ys) body w = match forEach xs body w with
      | .ok _ w1 => forEach ys body w1
      | .abort e w1 => .abort e w1 := by
  induction xs generalizing w with
  | nil => rfl
  | cons x rest ih =>
    simp only [List.cons_append, forEach, bind_apply]
    cases body x w with
    | ok a w1 => exact ih w1
    | abort e w1 => rfl

theorem forEach_cons_abort {α : Type} (body : α → M Unit) (x : α) (rest : List α) (w : World)
    (e : Exit) (w1 : World) (h : body x w = .abort e w1) :
    forEach (x :: rest) body w = .abort e w1 := by
  simp only [forEach, bind_apply, h]

/-- C3. When the turn of the fixture product `p` comes in `createProducts`
(the products before it went through, leaving `w1`): the rest of the run is
the loop from `p` on; if no category of the store has the declared name the
run ends in `log.Fatalf` with the tables as they were, so neither `p` nor any
later row is inserted; however the round of `p` ends, either no row at all was
inserted or exactly one product row was appended whose category reference is
the id of the category the lookup found, the first row of the store with the
declared name; and that row is inserted whenever such a category exists and
the lookup and the insertion are not failed by the storage. -/
theorem createProducts_resolves_category (env : Env) (seeds : SeedData)
    (pre post : List SeedProduct) (p : SeedProduct) (w w1 : World)
    (hsplit : seeds.products = pre ++ p :: post)
    (hpre : forEach pre (createProduct env) w = .ok () w1) :
    createProducts env seeds w = forEach (p :: post) (createProduct env) w1
    ∧ ((∀ c ∈ w1.db.categories, c.name ≠ p.categoryName) →
        (createProducts env seeds w).exit = some (.fatal "can't find category")
        ∧ (createProducts env seeds w).world.db = w1.db)
    ∧ ((createProduct env p w1).world.db = w1.db
        ∨ ∃ c row, c ∈ w1.db.categories ∧ c.name = p.categoryName
            ∧ w1.db.categories.find? (fun c => c.name = p.categoryName) = some c
            ∧ (createProduct env p w1).world.db.products = w1.db.products ++ [row]
            ∧ row.categoryID = c.id)
    ∧ ((∃ c ∈ w1.db.categories, c.name = p.categoryName) →
        env.storageErr w1.trace.length = false → env.storageErr (w1.trace.length + 1) = false →
        ∃ c row, c ∈ w1.db.categories ∧ c.name = p.categoryName
            ∧ (createProduct env p w1).world.db.products = w1.db.products ++ [row]
            ∧ row.categoryID = c.id) := by
  have hrun : createProducts env seeds w = forEach (p :: post) (createProduct env) w1 := by
    unfold createProducts
    rw [hsplit, forEach_append, hpre]
  have hsat := createProduct_sat env p w1
  have hins : ∀ w2, ProductInserted w1 w2 p → ∃ c row, c ∈ w1.db.categories
      ∧ c.name = p.categoryName
      ∧ w1.db.categories.find? (fun c => c.name = p.categoryName) = some c
      ∧ w2.db.products = w1.db.products ++ [row] ∧ row.categoryID = c.id := by
    intro w2 ⟨c, row, hc, hp, hid, _⟩
    exact ⟨c, row, List.mem_of_find?_eq_some hc, by simpa using List.find?_some hc, hc, hp, hid⟩
  refine ⟨hrun, ?_, ?_, ?_⟩
  · intro hmiss
    have hnone : w1.db.categories.find? (fun c => decide (c.name = p.categoryName)) = none := by
      rw [List.find?_eq_none]
      intro c hc
      simpa using hmiss c hc
    rw [hrun]
    cases hr : createProduct env p w1 with
    | ok a w2 =>
      rw [hr] at hsat
      obtain ⟨⟨c, _, hc, _⟩, _⟩ := hsat
      rw [hnone] at hc
      exact absurd hc (by simp)
    | abort e w2 =>
      rw [hr] at hsat
      rw [forEach_cons_abort _ _ _ _ _ _ hr]
      obtain ⟨_, h | h | h⟩ := hsat
      · exact ⟨by rw [h.2.1]; rfl, h.1⟩
      · exact absurd hnone h.2.2.2
      · obtain ⟨c, _, hc, _⟩ := h
        rw [hnone] at hc
        exact absurd hc (by simp)
  · rcases sat_elim hsat with ⟨_, _, h, _⟩ | ⟨e, _, _, h | h | h⟩
    · exact Or.inr (hins _ h)
    · exact Or.inl h.1
    · exact Or.inl h.1
    · exact Or.inr (hins _ h)
  · intro ⟨c, hc, hname⟩ h0 h1
    have hsome : w1.db.categories.find? (fun c => decide (c.name = p.categoryName)) ≠ none :=
      find?_ne_none_of_name _ _ ⟨c, hc, by simpa using hname⟩
    rcases sat_elim hsat with ⟨_, _, h, _⟩ | ⟨e, _, _, h | h | h⟩
    · obtain ⟨c1, row, m1, m2, _, m4, m5⟩ := hins _ h
      exact ⟨c1, row, m1, m2, m4, m5⟩
    · rcases h.2.2 with h3 | h3
      · rw [h0] at h3; exact absurd h3 (by simp)
      · exact absurd h3 hsome
    · rw [h1] at h; exact absurd h.2.2.1 (by simp)
    · obtain ⟨c1, row, m1, m2, _, m4, m5⟩ := hins _ h
      exact ⟨c1, row, m1, m2, m4, m5⟩

/-- C3, witness: on empty tables the category "Shirts" is missing and the run
of `createProducts` on the scenario fixture ends in `log.Fatalf` at its first
product, with nothing inserted. -/
theorem createProducts_resolves_category_witness :
    (createProducts quietEnv shirtSeeds World.empty).exit = some (.fatal "can't find category")
    ∧ (createProducts quietEnv shirtSeeds World.empty).world.db = World.empty.db :=
  (createProducts_resolves_category quietEnv shirtSeeds [] []
    { categoryName := "Shirts", name := "Oxford Shirt", nameWithSlug := "oxford-shirt",
      code := "OX1", price := 50, description := "A shirt", madeCountry := "Italy",
      colorVariations := [{ colorName := "Red", images := [] }],
      sizeVariations := [{ sizeName := "M" }] }
    World.empty World.empty rfl rfl).2.1 (fun _ h => absurd h (List.not_mem_nil _))

/-- The function `createProducts` keeps the journal sound, in any
environment. -/
theorem createProducts_sound (env : Env) (seeds : SeedData) (w : World) (hs : Sound w) :
    (createProducts env seeds w).sat (fun _ w2 => Sound w2) (fun _ w2 => Sound w2) := by
  unfold createProducts
  refine sat_forEach_inv _ Sound _ _ w hs ?_
  intro p _ w1 h1
  exact sat_mono (createProduct_sat env p w1) (fun _ _ h => h.2 h1) (fun _ _ h => h.1 h1)

/-- A storage call that inserts nothing keeps the journal sound. -/
theorem storage_sound_same {α : Type} (msg : String) (env : Env) (op : Op) (t : TableName)
    (draft : Bool) (run : World → α × World) (w : World) (hs : Sound w)
    (hj : (run w).2.journal = w.journal) :
    (orFatal msg (storage env op t draft run) w).sat (fun _ w2 => Sound w2)
      (fun _ w2 => Sound w2) := by
  rw [sat_orFatal_storage]
  split_ifs
  · exact hs.same (by simp)
  · exact hs.same (by simp [hj])

/-- A storage call that inserts one row whose references are present keeps
the journal sound. -/
theorem storage_sound_snoc {α : Type} (msg : String) (env : Env) (op : Op) (t : TableName)
    (draft : Bool) (run : World → α × World) (w : World) (hs : Sound w) (x : Insert)
    (hj : (run w).2.journal = w.journal ++ [x]) (hx : x.refsPresent = true) :
    (orFatal msg (storage env op t draft run) w).sat (fun _ w2 => Sound w2)
      (fun _ w2 => Sound w2) := by
  rw [sat_orFatal_storage]
  split_ifs
  · exact hs.same (by simp)
  · exact hs.snoc x (by simp [hj]) hx

/-- The function `createUsers` keeps the journal sound, in any environment. -/
theorem createUsers_sound (env : Env) (w : World) (hs : Sound w) :
    (createUsers env w).sat (fun _ w2 => Sound w2) (fun _ w2 => Sound w2) := by
  have := sat_loopFrom (fun i => (do
      let email ← fake env
      let name ← fake env
      let gender := ["Female", "Male"].get ⟨i % 2, Nat.mod_lt i (by decide)⟩
      let user : User := { id := 0, email := email, name := name, gender := gender, createdAt := 0 }
      let user ← orFatal "create user failure" (dbCreateUser env user)
      let t ← randTime env
      let user := { user with createdAt := t }
      orFatal "Save user failure" (dbSaveUser env user) : M Unit))
    (fun _ w2 => Sound w2) (fun _ w2 => Sound w2) 500 0 w hs (by
      intro j w1 _ _ h
      simp only [sat_bind, randTime, sat_fake, sat_timeNow, sat_randIntn, sat_pure]
      refine sat_mono (storage_sound_snoc _ env _ _ _ _ _ (h.same rfl) _ rfl rfl) ?_
        (fun _ _ h => h)
      intro user w2 h2
      unfold dbSaveUser
      by_cases hm : user.id ∈ w2.db.users.map User.id
      · exact storage_sound_same _ env _ _ _ _ _ (h2.same rfl) (by simp [hm])
      · exact storage_sound_snoc _ env _ _ _ _ _ (h2.same rfl) _
          (by simp [hm, World.logInsert]; rfl) rfl)
  simpa [createUsers] using this

/-- The function `createAddresses` keeps the journal sound, in any
environment: each address refers to a user the query returned, and users are
not touched meanwhile. -/
theorem createAddresses_sound (env : Env) (w : World) (hs : Sound w) :
    (createAddresses env w).sat (fun _ w2 => Sound w2) (fun _ w2 => Sound w2) := by
  simp only [createAddresses, sat_bind, sat_orFatal_storage, dbFindUsers]
  split_ifs
  · exact hs.same (by simp)
  · refine sat_mono (sat_forEach_inv _ (fun w2 => Sound w2 ∧ w2.db.users = w.db.users)
      (fun _ w2 => Sound w2) w.db.users (w.logCall .find .users false false)
      ⟨hs.same (by simp), by simp⟩ ?_) (fun _ _ h => h.1) (fun _ _ h => h)
    intro x hx w1 ⟨h1, hu⟩
    simp only [sat_bind, sat_fake, sat_pure]
    have hmem : x.id ∈ w1.db.users.map User.id := by
      rw [hu]
      exact List.mem_map_of_mem _ hx
    rw [dbCreateAddress, sat_orFatal_storage]
    split_ifs
    · exact h1.same (by simp)
    · exact ⟨h1.snoc _ (by simp [World.logCall, World.logInsert]; rfl) (by simpa using hmem),
        by simp [World.logInsert, hu]⟩

/-- The function `createCategories` keeps the journal sound, in any
environment. -/
theorem createCategories_sound (env : Env) (seeds : SeedData) (w : World) (hs : Sound w) :
    (createCategories env seeds w).sat (fun _ w2 => Sound w2) (fun _ w2 => Sound w2) := by
  unfold createCategories
  refine sat_forEach_inv _ Sound _ _ w hs ?_
  intro x _ w1 h1
  simp only [sat_bind, sat_pure]
  exact storage_sound_snoc _ env _ _ _ _ _ h1 _ rfl rfl

/-- The function `createColors` keeps the journal sound, in any environment. -/
theorem createColors_sound (env : Env) (seeds : SeedData) (w : World) (hs : Sound w) :
    (createColors env seeds w).sat (fun _ w2 => Sound w2) (fun _ w2 => Sound w2) := by
  unfold createColors
  refine sat_forEach_inv _ Sound _ _ w hs ?_
  intro x _ w1 h1
  simp only [sat_bind, sat_pure]
  exact storage_sound_snoc _ env _ _ _ _ _ h1 _ rfl rfl

/-- The function `createSizes` keeps the journal sound, in any environment. -/
theorem createSizes_sound (env : Env) (seeds : SeedData) (w : World) (hs : Sound w) :
    (createSizes env seeds w).sat (fun _ w2 => Sound w2) (fun _ w2 => Sound w2) := by
  unfold createSizes
  refine sat_forEach_inv _ Sound _ _ w hs ?_
  intro x _ w1 h1
  simp only [sat_bind, sat_pure]
  exact storage_sound_snoc _ env _ _ _ _ _ h1 _ rfl rfl

/-- The function `createStores` keeps the journal sound, in any environment. -/
theorem createStores_sound (env : Env) (seeds : SeedData) (w : World) (hs : Sound w) :
    (createStores env seeds w).sat (fun _ w2 => Sound w2) (fun _ w2 => Sound w2) := by
  unfold createStores
  refine sat_forEach_inv _ Sound _ _ w hs ?_
  intro x _ w1 h1
  simp only [sat_bind, sat_pure]
  exact storage_sound_snoc _ env _ _ _ _ _ h1 _ rfl rfl

/-- The function `findProductByColorVariationID` changes neither the tables
nor the journal, in any environment. -/
theorem findProductByColorVariationID_frame (env : Env) (id : Nat) (w : World) :
    (findProductByColorVariationID env id w).sat
      (fun _ w2 => w2.db = w.db ∧ w2.journal = w.journal)
      (fun _ w2 => w2.db = w.db ∧ w2.journal = w.journal) := by
  unfold findProductByColorVariationID dbFindColorVariation dbFindProduct
  rw [sat_bind]
  refine sat_mono (dbSingle_sat _ env _ _ _ _ w) ?_ (fun _ _ h => ⟨h.1, h.2.1⟩)
  intro cv w2 ⟨hdb, hj, _, _⟩
  refine sat_mono (dbSingle_sat _ env _ _ _ _ w2) ?_ ?_
  · intro _ w3 ⟨hdb3, hj3, _, _⟩
    exact ⟨hdb3.trans hdb, hj3.trans hj⟩
  · intro _ w3 ⟨hdb3, hj3, _, _⟩
    exact ⟨hdb3.trans hdb, hj3.trans hj⟩

/-- The users, addresses and size variations of `w2` are those of `w1`. -/
theorem createOrderRow_sat (env : Env) (msg : String) (o0 : Order) (w : World) :
    (orFatal msg (dbCreateOrder env o0) w).sat
      (fun row w2 => w2.db.users = w.db.users ∧ w2.db.addresses = w.db.addresses
        ∧ w2.db.sizeVariations = w.db.sizeVariations
        ∧ row.id ∈ w2.db.orders.map Order.id
        ∧ row.userID = o0.userID ∧ row.shippingAddressID = o0.shippingAddressID
        ∧ row.billingAddressID = o0.billingAddressID
        ∧ (Sound w → o0.userID ∈ w.db.users.map User.id →
            o0.shippingAddressID ∈ w.db.addresses.map Address.id →
            o0.billingAddressID ∈ w.db.addresses.map Address.id → Sound w2))
      (fun _ w2 => Sound w → Sound w2) := by
  simp only [dbCreateOrder, sat_orFatal_storage]
  split_ifs
  · exact fun hs => hs.same (by simp)
  · refine ⟨by simp [World.logInsert], by simp [World.logInsert], by simp [World.logInsert],
      by simp [World.logInsert], by simp, by simp, by simp, ?_⟩
    intro hs h1 h2 h3
    refine hs.snoc _ (by simp [World.logCall, World.logInsert]; rfl) ?_
    simp only [Bool.and_eq_true, decide_eq_true_eq]
    exact ⟨⟨by simpa using h1, by simpa using h2⟩, by simpa using h3⟩

/-- The insertion of an order item, in any environment. -/
theorem createOrderItemRow_sat (env : Env) (msg : String) (it0 : OrderItem) (w : World) :
    (orFatal msg (dbCreateOrderItem env it0) w).sat
      (fun _ w2 => w2.db.users = w.db.users ∧ w2.db.addresses = w.db.addresses
        ∧ w2.db.sizeVariations = w.db.sizeVariations ∧ w2.db.orders = w.db.orders
        ∧ (Sound w → it0.orderID ∈ w.db.orders.map Order.id →
            it0.sizeVariationID ∈ w.db.sizeVariations.map SizeVariation.id → Sound w2))
      (fun _ w2 => Sound w → Sound w2) := by
  simp only [dbCreateOrderItem, sat_orFatal_storage]
  split_ifs
  · exact fun hs => hs.same (by simp)
  · refine ⟨by simp [World.logInsert], by simp [World.logInsert], by simp [World.logInsert],
      by simp [World.logInsert], ?_⟩
    intro hs h1 h2
    refine hs.snoc _ (by simp [World.logCall, World.logInsert]; rfl) ?_
    simp only [Bool.and_eq_true, decide_eq_true_eq]
    exact ⟨by simpa using h1, by simpa using h2⟩

/-- The save of an order, in any environment. -/
theorem saveOrder_sat (env : Env) (msg : String) (o : Order) (w : World) :
    (orFatal msg (dbSaveOrder env o) w).sat
      (fun _ w2 => w2.db.users = w.db.users ∧ w2.db.addresses = w.db.addresses
        ∧ w2.db.sizeVariations = w.db.sizeVariations
        ∧ (Sound w → o.userID ∈ w.db.users.map User.id →
            o.shippingAddressID ∈ w.db.addresses.map Address.id →
            o.billingAddressID ∈ w.db.addresses.map Address.id → Sound w2))
      (fun _ w2 => Sound w → Sound w2) := by
  simp only [dbSaveOrder, sat_orFatal_storage]
  split_ifs with h1 h2
  · exact fun hs => hs.same (by simp)
  · exact ⟨by simp, by simp, by simp, fun hs _ _ _ => hs.same (by simp)⟩
  · refine ⟨by simp [World.logInsert], by simp [World.logInsert], by simp [World.logInsert], ?_⟩
    intro hs h1 h2 h3
    refine hs.snoc _ (by simp [World.logCall, World.logInsert]; rfl) ?_
    simp only [Bool.and_eq_true, decide_eq_true_eq]
    exact ⟨⟨by simpa using h1, by simpa using h2⟩, by simpa using h3⟩

/-- One round of the loop of `createOrders` keeps the journal sound, in any
environment, when the user, the user's addresses and the size variations are
in the store; it touches none of these tables. -/
theorem createOrder_sound (env : Env) (svs : List SizeVariation) (i : Nat)
    (u : UserWithAddresses) (w1 : World) (hs : Sound w1)
    (hu : u.user.id ∈ w1.db.users.map User.id)
    (ha : ∀ a ∈ u.addresses, a.id ∈ w1.db.addresses.map Address.id)
    (hsv : ∀ sv ∈ svs, sv.id ∈ w1.db.sizeVariations.map SizeVariation.id) :
    (createOrder env svs i u w1).sat
      (fun _ w2 => Sound w2 ∧ w2.db.users = w1.db.users ∧ w2.db.addresses = w1.db.addresses
        ∧ w2.db.sizeVariations = w1.db.sizeVariations)
      (fun _ w2 => Sound w2) := by
  obtain ⟨user, addrs⟩ := u
  cases addrs with
  | nil => simpa [createOrder] using hs
  | cons address rest =>
    have haddr : address.id ∈ w1.db.addresses.map Address.id := ha address (List.mem_cons_self _ _)
    by_cases hlen : svs.length = 0
    · simp only [createOrder, hlen, dite_true]
      rw [sat_bind]
      refine sat_mono (createOrderRow_sat env _ _ w1) ?_ (fun _ _ h => h hs)
      intro order w2 ⟨_, _, _, _, _, _, _, h2⟩
      simpa using h2 hs hu haddr haddr
    · have hlt : i % svs.length < svs.length := Nat.mod_lt _ (Nat.pos_of_ne_zero hlen)
      simp only [createOrder, hlen, dite_false]
      rw [sat_bind]
      refine sat_mono (createOrderRow_sat env _ _ w1) ?_ (fun _ _ h => h hs)
      intro order w2 ⟨e1, e2, e3, hid, o1, o2, o3, h2⟩
      have hs2 : Sound w2 := h2 hs hu haddr haddr
      rw [sat_bind]
      refine sat_mono (findProductByColorVariationID_frame env _ w2) ?_
        (fun _ _ h => hs2.same h.2)
      intro product w3 ⟨hdb3, hj3⟩
      have hs3 : Sound w3 := hs2.same hj3
      rw [sat_bind]
      refine sat_mono (createOrderItemRow_sat env _ _ w3) ?_ (fun _ _ h => h hs3)
      intro _ w4 ⟨f1, f2, f3, f4, h4⟩
      have hs4 : Sound w4 := by
        refine h4 hs3 (by rw [hdb3]; exact hid) ?_
        rw [hdb3, e3]
        exact hsv _ (List.get_mem _ _ _)
      rw [sat_bind, sat_randIntn]
      generalize hw5 : ({ w4 with randDraws := _ } : World) = w5
      have hs5 : Sound w5 := by subst hw5; exact hs4.same rfl
      have hdb5 : w5.db = w4.db := by subst hw5; rfl
      refine sat_mono (saveOrder_sat env _ _ w5) ?_ (fun _ _ h => h hs5)
      intro _ w6 ⟨g1, g2, g3, h6⟩
      have hu5 : w5.db.users = w1.db.users := by rw [hdb5, f1, hdb3, e1]
      have ha5 : w5.db.addresses = w1.db.addresses := by rw [hdb5, f2, hdb3, e2]
      have hv5 : w5.db.sizeVariations = w1.db.sizeVariations := by rw [hdb5, f3, hdb3, e3]
      refine ⟨h6 hs5 ?_ ?_ ?_, g1.trans hu5, g2.trans ha5, g3.trans hv5⟩
      · rw [hu5, o1]; exact hu
      · rw [ha5, o2]; exact haddr
      · rw [ha5, o3]; exact haddr

/-- The function `createOrders` keeps the journal sound, in any environment. -/
theorem createOrders_sound (env : Env) (w : World) (hs : Sound w) :
    (createOrders env w).sat (fun _ w2 => Sound w2) (fun _ w2 => Sound w2) := by
  simp only [createOrders, sat_bind, sat_orFatal_storage, dbFindUsersWithAddresses,
    dbFindSizeVariations]
  split_ifs
  · exact hs.same (by simp)
  · exact hs.same (by simp)
  · have hloop := sat_forEachIdx (createOrder env w.db.sizeVariations)
      (fun _ w2 => Sound w2 ∧ w2.db.users = w.db.users ∧ w2.db.addresses = w.db.addresses
        ∧ w2.db.sizeVariations = w.db.sizeVariations)
      (fun _ w2 => Sound w2)
      ((w.db.users.take 480).map fun u =>
        { user := u, addresses := w.db.addresses.filter fun a => a.userID = u.id })
      0 ((w.logCall .find .users false false).logCall .find .sizeVariations false false)
      ⟨hs.same (by simp), by simp, by simp, by simp⟩
      (by
        intro j x w1 hx ⟨h1, hu, ha, hv⟩
        have hxm := List.getElem?_mem hx
        simp only [List.mem_map] at hxm
        obtain ⟨u, hum, rfl⟩ := hxm
        refine sat_mono (createOrder_sound env _ _ _ w1 h1 ?_ ?_ ?_) ?_ (fun _ _ h => h)
        · rw [hu]
          exact List.mem_map_of_mem _ (List.mem_of_mem_take hum)
        · intro a ham
          rw [ha]
          exact List.mem_map_of_mem _ (List.mem_of_mem_filter ham)
        · intro sv hsvm
          rw [hv]
          exact List.mem_map_of_mem _ hsvm
        · intro _ w2 ⟨g0, g1, g2, g3⟩
          exact ⟨g0, g1.trans hu, g2.trans ha, g3.trans hv⟩)
    exact sat_mono hloop (fun _ _ h => h.1) (fun _ _ h => h)

/-- The function `createRecords` keeps the journal sound, in any
environment. -/
theorem createRecords_sound (env : Env) (seeds : SeedData) (w : World) (hs : Sound w) :
    (createRecords env seeds w).sat (fun _ w2 => Sound w2) (fun _ w2 => Sound w2) := by
  unfold createRecords
  rw [sat_bind, sat_println, sat_bind]
  refine sat_mono (createUsers_sound env _ (hs.same rfl)) ?_ (fun _ _ h => h)
  intro _ w1 h1
  rw [sat_bind, sat_println, sat_bind]
  refine sat_mono (createAddresses_sound env _ (h1.same rfl)) ?_ (fun _ _ h => h)
  intro _ w2 h2
  rw [sat_bind, sat_println, sat_bind]
  refine sat_mono (createCategories_sound env seeds _ (h2.same rfl)) ?_ (fun _ _ h => h)
  intro _ w3 h3
  rw [sat_bind, sat_println, sat_bind]
  refine sat_mono (createColors_sound env seeds _ (h3.same rfl)) ?_ (fun _ _ h => h)
  intro _ w4 h4
  rw [sat_bind, sat_println, sat_bind]
  refine sat_mono (createSizes_sound env seeds _ (h4.same rfl)) ?_ (fun _ _ h => h)
  intro _ w5 h5
  rw [sat_bind, sat_println, sat_bind]
  refine sat_mono (createProducts_sound env seeds _ (h5.same rfl)) ?_ (fun _ _ h => h)
  intro _ w6 h6
  rw [sat_bind, sat_println, sat_bind]
  refine sat_mono (createStores_sound env seeds _ (h6.same rfl)) ?_ (fun _ _ h => h)
  intro _ w7 h7
  rw [sat_bind, sat_println, sat_bind]
  refine sat_mono (createOrders_sound env _ (h7.same rfl)) ?_ (fun _ _ h => h)
  intro _ w8 h8
  rw [sat_bind, sat_println, sat_println]
  exact (h8.same rfl).same rfl

/-- C8. Starting from empty tables, in any environment and for any fixture,
at whatever point `createRecords` stops, every row it inserted (an address, a
product, a color variation, an image, a size variation, an order, an order
item, and the rows without references) carried foreign keys that, at the
moment of insertion, were each the id of a row present in the referenced
table. -/
theorem createRecords_references_present (env : Env) (seeds : SeedData) :
    ∀ e ∈ (createRecords env seeds World.empty).world.journal, e.refsPresent = true := by
  have h0 : Sound World.empty := by
    intro e he
    exact absurd he (List.not_mem_nil _)
  exact sat_world Sound (createRecords_sound env seeds World.empty h0)

/-- C8 at a concrete run: when the `Save` of the first user fails, the run
stops with one row in the journal, the first user, whose record is true. -/
theorem createRecords_references_present_witness :
    ({ table := .users, id := 1, refsPresent := true } : Insert)
        ∈ (createRecords saveFailsEnv shirtSeeds World.empty).world.journal
    ∧ ({ table := .users, id := 1, refsPresent := true } : Insert).refsPresent = true :=
  ⟨by decide,
   createRecords_references_present saveFailsEnv shirtSeeds
     { table := .users, id := 1, refsPresent := true } (by decide)⟩

/-! ## Image fetch failures -/

/-- C5, counterexample. With every download failing, `createProducts` on a
fixture with one image URL completes, goes on to insert the size variation,
and the image table holds a row for that URL, with no file in it; the failure
was logged. -/
theorem createProducts_failed_fetch_still_inserts :
    (openFileByURL offlineEnv "/img/red.jpg" catalogWorld).1.err
      = some "no route to host"
    ∧ (createProducts offlineEnv pictureSeeds catalogWorld).exit = none
    ∧ (createProducts offlineEnv pictureSeeds catalogWorld).world.db.colorVariationImages
      = [{ id := 1, colorVariationID := 1, image := none }]
    ∧ (createProducts offlineEnv pictureSeeds catalogWorld).world.db.sizeVariations.length = 1
    ∧ (createProducts offlineEnv pictureSeeds catalogWorld).world.stdout
      = ["open file failure /img/red.jpg"] := by
  decide

theorem exit_none_eq {r : Res Unit} (h : r.exit = none) : r = .ok () r.world := by
  cases r with
  | ok a w => rfl
  | abort e w => exact absurd h (by simp [Res.exit])

/-- One round of the image loop when the fetch fails, in any environment. -/
theorem createImage_sat_fetch_failure (env : Env) (cv : ColorVariation) (img : SeedImage)
    (w : World) (e : String) (he : (openFileByURL env img.url w).1.err = some e) :
    (createImage env cv img w).sat
      (fun _ w2 => env.storageErr w.trace.length = false
        ∧ w2.stdout = (openFileByURL env img.url w).2.stdout ++ ["open file failure " ++ img.url]
        ∧ w2.db.colorVariationImages = w.db.colorVariationImages
            ++ [{ id := nextID (w.db.colorVariationImages.map ColorVariationImage.id),
                  colorVariationID := cv.id, image := none }])
      (fun x w2 => env.storageErr w.trace.length = true
        ∧ w2.stdout = (openFileByURL env img.url w).2.stdout ++ ["open file failure " ++ img.url]
        ∧ x = .fatal "create color_variation_image failure" ∧ w2.db = w.db) := by
  simp only [createImage, sat_bind, sat_effect, he, sat_println, sat_pure, sat_orFatal_storage,
    dbCreateColorVariationImage]
  split_ifs with h
  · simpa [World.logCall] using h
  · simpa [World.logCall, World.logInsert] using h

/-- C5, amended. For an image URL whose fetch by `openFileByURL` returns an
error, the round of the image loop of `createProducts` logs the failure and
still asks the storage to insert an image row for the color variation, with
no file in it. When the storage accepts the insert the round completes with
that row appended, and the loop goes on with the remaining images from there;
when the storage fails the insert the run ends in `log.Fatalf` with no row
inserted. -/
theorem createImage_fetch_failure (env : Env) (cv : ColorVariation) (img : SeedImage)
    (w : World) (hfail : (openFileByURL env img.url w).1.err ≠ none) :
    (createImage env cv img w).world.stdout
      = (openFileByURL env img.url w).2.stdout ++ ["open file failure " ++ img.url]
    ∧ (env.storageErr w.trace.length = false →
        (createImage env cv img w).exit = none
        ∧ (createImage env cv img w).world.db.colorVariationImages
          = w.db.colorVariationImages
            ++ [{ id := nextID (w.db.colorVariationImages.map ColorVariationImage.id),
                  colorVariationID := cv.id, image := none }]
        ∧ ∀ rest, forEach (img :: rest) (createImage env cv) w
          = forEach rest (createImage env cv) (createImage env cv img w).world)
    ∧ (env.storageErr w.trace.length = true →
        (createImage env cv img w).exit = some (.fatal "create color_variation_image failure")
        ∧ (createImage env cv img w).world.db = w.db) := by
  obtain ⟨e, he⟩ := Option.ne_none_iff_exists'.mp hfail
  rcases sat_elim (createImage_sat_fetch_failure env cv img w e he) with
    ⟨hex, _, hok, hout, himg⟩ | ⟨x, hex, herr, hout, hx, hdb⟩
  · refine ⟨hout, fun _ => ⟨hex, himg, ?_⟩, fun h => ?_⟩
    · intro rest
      have hr := exit_none_eq hex
      generalize (createImage env cv img w).world = w2 at hr
      simp only [forEach, bind_apply, hr]
    · rw [hok] at h
      exact absurd h (by simp)
  · refine ⟨hout, fun h => ?_, fun _ => ⟨by rw [hex, hx], hdb⟩⟩
    rw [herr] at h
    exact absurd h (by simp)

/-- C5, witness: the fetch of the image of the fixture fails when every
download fails, and the round inserts the row all the same. -/
theorem createImage_fetch_failure_witness :
    (openFileByURL offlineEnv "/img/red.jpg" catalogWorld).1.err ≠ none
    ∧ (createImage offlineEnv { id := 1, productID := 1, colorID := 1 }
        { url := "/img/red.jpg" } catalogWorld).exit = none :=
  ⟨by decide,
    ((createImage_fetch_failure offlineEnv { id := 1, productID := 1, colorID := 1 }
      { url := "/img/red.jpg" } catalogWorld (by decide)).2.1 rfl).1⟩
/-! ## Asset fetcher -/

/-- C6, counterexample. When no file can be created under `tmp/`, a second
call of `openFileByURL` with the same URL returns an error and no handle. -/
theorem openFileByURL_second_call_no_handle :
    (openFileByURL noTmpEnv "/img/red.jpg"
      (openFileByURL noTmpEnv "/img/red.jpg" World.empty).2).1
      = { file := none, err := some "create error" } := by
  decide

/-- When the cached file cannot be opened for reading, the call returns the
error of `os.Open` and no handle, and makes no request. -/
theorem openFileByURL_unreadable_cache :
    openFileByURL unreadableEnv "/img/red.jpg" cachedWorld
      = ({ file := none, err := some "open error" }, cachedWorld) := by
  decide

/-- For a URL whose path ends in a slash the cache path is the directory
`tmp/` itself: when it exists the call returns a handle to the directory,
creates nothing and makes no request. -/
theorem openFileByURL_directory :
    openFileByURL quietEnv "/img/" tmpDirWorld
      = ({ file := some { path := "/srv/tmp/", writable := false }, err := none }, tmpDirWorld) := by
  decide

theorem fileBytes_writeFile (files : List (String × Bytes)) (path : String) (bytes : Bytes) :
    fileBytes (writeFile files path bytes) path = some bytes := by
  simp [fileBytes, writeFile]

theorem osStat_of_fileBytes (w : World) (path : String) (bytes : Bytes)
    (h : fileBytes w.files path = some bytes) : osStat w path = true := by
  simp [osStat, h]

theorem fileBytes_of_osStat (w : World) (path : String) (h : osStat w path = true)
    (hd : path ∉ w.dirs) : (fileBytes w.files path).isSome = true := by
  simpa [osStat, hd] using h

/-- What a call of `openFileByURL` leaves behind and returns, case by case:
the URL does not parse; something is at the cache path, which is then opened;
the file cannot be created; the file is created and then holds whatever the
download delivered. -/
theorem openFileByURL_cases (env : Env) (url : String) (w : World) :
    (env.urlPath url = none ∧ openFileByURL env url w = ({ file := none, err := some "parse error" }, w))
    ∨ (∃ path, env.urlPath url = some path ∧ osStat w (cachePath env path) = true
        ∧ openFileByURL env url w = (osOpen env (cachePath env path), w))
    ∨ (∃ path, env.urlPath url = some path ∧ osStat w (cachePath env path) = false
        ∧ env.canCreate (cachePath env path) = false
        ∧ openFileByURL env url w = ({ file := none, err := some "create error" }, w))
    ∨ (∃ path, env.urlPath url = some path ∧ osStat w (cachePath env path) = false
        ∧ env.canCreate (cachePath env path) = true
        ∧ (fileBytes (openFileByURL env url w).2.files (cachePath env path)).isSome = true
        ∧ (openFileByURL env url w).2.requests = w.requests ++ [url]) := by
  cases hp : env.urlPath url with
  | none => exact Or.inl ⟨rfl, by simp [openFileByURL, hp]⟩
  | some path =>
    refine Or.inr ?_
    cases hf : osStat w (cachePath env path) with
    | true => exact Or.inl ⟨path, rfl, hf, by simp [openFileByURL, hp, hf]⟩
    | false =>
      refine Or.inr ?_
      cases hc : env.canCreate (cachePath env path) with
      | false => exact Or.inl ⟨path, rfl, hf, hc, by simp [openFileByURL, hp, hf, hc]⟩
      | true =>
        refine Or.inr ⟨path, rfl, hf, hc, ?_⟩
        cases hg : env.httpGet url with
        | error msg => simp [openFileByURL, hp, hf, hc, hg, fileBytes_writeFile]
        | response delivered copyErr =>
          cases copyErr <;> simp [openFileByURL, hp, hf, hc, hg, fileBytes_writeFile]

/-- C6, amended. For every URL and filesystem state, a second call of
`openFileByURL` with the same URL makes no network request and changes
nothing, the filesystem included. When the URL parses and something was at
its cache path (named by the last segment of the URL path, under `tmp/`) or
the file could be created by the first call, the second call finds the path
and opens it: when `os.Open` succeeds it returns a read handle to that path
and no error, when `os.Open` fails it returns that error and no handle; the
bytes under the path are those the cache held after the first call, and they
are the bytes of a regular file unless the path is a directory (as for a URL
path that ends in a slash). Otherwise (the URL does not parse, or nothing is
at the path and the file cannot be created) the second call returns an error
and no handle. -/
theorem openFileByURL_twice (env : Env) (url : String) (w : World) :
    (openFileByURL env url (openFileByURL env url w).2).2 = (openFileByURL env url w).2
    ∧ (openFileByURL env url (openFileByURL env url w).2).2.requests
        = (openFileByURL env url w).2.requests
    ∧ (∀ path, env.urlPath url = some path →
        osStat w (cachePath env path) = true ∨ env.canCreate (cachePath env path) = true →
        cachePath env path = env.basePath ++ "/tmp/" ++ lastSegment path
        ∧ osStat (openFileByURL env url w).2 (cachePath env path) = true
        ∧ (env.canOpen (cachePath env path) = true →
            (openFileByURL env url (openFileByURL env url w).2).1
              = { file := some { path := cachePath env path, writable := false }, err := none })
        ∧ (env.canOpen (cachePath env path) = false →
            (openFileByURL env url (openFileByURL env url w).2).1
              = { file := none, err := some "open error" })
        ∧ (cachePath env path ∉ w.dirs →
            (fileBytes (openFileByURL env url w).2.files (cachePath env path)).isSome = true)
        ∧ fileBytes (openFileByURL env url (openFileByURL env url w).2).2.files (cachePath env path)
          = fileBytes (openFileByURL env url w).2.files (cachePath env path))
    ∧ ((env.urlPath url = none
          ∨ ∃ path, env.urlPath url = some path ∧ osStat w (cachePath env path) = false
              ∧ env.canCreate (cachePath env path) = false) →
        (openFileByURL env url (openFileByURL env url w).2).1.file = none
        ∧ (openFileByURL env url (openFileByURL env url w).2).1.err ≠ none) := by
  have hfixed : ∀ path, env.urlPath url = some path →
      osStat (openFileByURL env url w).2 (cachePath env path) = true →
      openFileByURL env url (openFileByURL env url w).2
        = (osOpen env (cachePath env path), (openFileByURL env url w).2) := by
    intro path hp hsome
    generalize (openFileByURL env url w).2 = w1 at hsome ⊢
    simp [openFileByURL, hp, hsome]
  have hopen : ∀ (p : String) (w1 : World),
      (env.canOpen p = true →
        (osOpen env p, w1).1 = { file := some { path := p, writable := false }, err := none })
      ∧ (env.canOpen p = false → (osOpen env p, w1).1 = { file := none, err := some "open error" }) := by
    intro p w1
    constructor <;> intro h <;> simp [osOpen, h]
  rcases openFileByURL_cases env url w with ⟨hp, h1⟩ | ⟨path, hp, hf, h1⟩ | ⟨path, hp, hf, hc, h1⟩
      | ⟨path, hp, hf, hc, hsome, _⟩
  · have h2 : openFileByURL env url (openFileByURL env url w).2
        = ({ file := none, err := some "parse error" }, (openFileByURL env url w).2) := by
      rw [h1]; exact h1
    rw [h2]
    refine ⟨rfl, rfl, ?_, ?_⟩
    · intro path hp2
      rw [hp] at hp2
      exact absurd hp2 (by simp)
    · intro _
      exact ⟨rfl, by simp⟩
  · have hw : (openFileByURL env url w).2 = w := by rw [h1]
    have hst : osStat (openFileByURL env url w).2 (cachePath env path) = true := by rw [hw]; exact hf
    have h2 := hfixed path hp hst
    rw [h2]
    refine ⟨rfl, rfl, ?_, ?_⟩
    · intro path2 hp2 _
      rw [hp] at hp2
      obtain rfl := Option.some.inj hp2
      refine ⟨rfl, hst, (hopen _ _).1, (hopen _ _).2, ?_, rfl⟩
      intro hd
      rw [hw]
      exact fileBytes_of_osStat w _ hf hd
    · intro hbad
      rcases hbad with h | ⟨path2, hp2, hf2, _⟩
      · rw [hp] at h; exact absurd h (by simp)
      · rw [hp] at hp2
        obtain rfl := Option.some.inj hp2
        rw [hf2] at hf
        exact absurd hf (by simp)
  · have h2 : openFileByURL env url (openFileByURL env url w).2
        = ({ file := none, err := some "create error" }, (openFileByURL env url w).2) := by
      rw [h1]; exact h1
    rw [h2]
    refine ⟨rfl, rfl, ?_, ?_⟩
    · intro path2 hp2 hor
      rw [hp] at hp2
      obtain rfl := Option.some.inj hp2
      rcases hor with h | h
      · rw [hf] at h; exact absurd h (by simp)
      · rw [hc] at h; exact absurd h (by simp)
    · intro _
      exact ⟨rfl, by simp⟩
  · obtain ⟨bytes, hb⟩ := Option.isSome_iff_exists.mp hsome
    have hst := osStat_of_fileBytes _ _ bytes hb
    have h2 := hfixed path hp hst
    rw [h2]
    refine ⟨rfl, rfl, ?_, ?_⟩
    · intro path2 hp2 _
      rw [hp] at hp2
      obtain rfl := Option.some.inj hp2
      exact ⟨rfl, hst, (hopen _ _).1, (hopen _ _).2, fun _ => hsome, rfl⟩
    · intro hbad
      rcases hbad with h | ⟨path2, hp2, _, hc2⟩
      · rw [hp] at h; exact absurd h (by simp)
      · rw [hp] at hp2
        obtain rfl := Option.some.inj hp2
        rw [hc] at hc2
        exact absurd hc2 (by simp)

/-! ## Schema reset -/

/-- C7, the code at the failing input. When the `AutoMigrate` of the first
table on the primary target returns an error, `truncateTables` does not stop:
it goes on through all twelve tables (48 storage calls), completes normally,
and leaves the primary target without the `users` table. -/
theorem truncateTables_ignores_migrate_error :
    (truncateTables migrateFailsEnv World.empty).exit = none
    ∧ (truncateTables migrateFailsEnv World.empty).world.trace.length = 48
    ∧ (truncateTables migrateFailsEnv World.empty).world.trace[2]?
        = some { op := .autoMigrate, table := .users, draft := false, failed := true }
    ∧ ((truncateTables migrateFailsEnv World.empty).world.trace.filter fun c => c.failed).length = 1
    ∧ TableName.users ∉ (truncateTables migrateFailsEnv World.empty).world.schema
    ∧ TableName.addresses ∈ (truncateTables migrateFailsEnv World.empty).world.schema := by
  decide

/-- When a `DropTableIfExists` returns an error the run ends at once in a
panic: here the very first call fails and no other call is made. -/
theorem truncateTables_stops_on_drop_error :
    (truncateTables firstCallFailsEnv World.empty).exit = some (.panic storageError)
    ∧ (truncateTables firstCallFailsEnv World.empty).world.trace
        = [{ op := .dropTableIfExists, table := .users, draft := false, failed := true }] := by
  decide

/-- When the storage fails no call, `truncateTables` goes through the tables
in the order of `Tables` and, for each, drops it on the primary and on the
draft target and then recreates it on both. -/
theorem truncateTables_calls (env : Env) (hok : ∀ n, env.storageErr n = false) (w : World) :
    (truncateTables env w).exit = none
    ∧ (truncateTables env w).world.trace = w.trace ++ Tables.flatMap resetCalls := by
  have h : ∀ (ts : List TableName) (w1 : World),
      (forEach ts (fun table => (do
        orPanic (dbDropTableIfExists env false table)
        orPanic (dbDropTableIfExists env true table)
        ignoreErr (dbAutoMigrate env false table)
        ignoreErr (dbAutoMigrate env true table) : M Unit)) w1).sat
        (fun _ w2 => w2.trace = w1.trace ++ ts.flatMap resetCalls) (fun _ _ => False) := by
    intro ts
    induction ts with
    | nil => intro w1; simp [forEach]
    | cons t rest ih =>
      intro w1
      unfold forEach
      simp only [sat_bind, dbDropTableIfExists, dbAutoMigrate, sat_orPanic_storage,
        sat_ignoreErr_storage, hok, Bool.false_eq_true, if_false]
      refine sat_mono (ih _) ?_ (fun _ _ h => h)
      intro _ w2 h2
      rw [h2]
      simp [World.logCall, resetCalls]
  obtain ⟨hex, _, _, htr⟩ := sat_noabort (h Tables w)
  exact ⟨hex, htr⟩

end Seeds
